import Mathlib

/-!
Verification development for the `InteractiveFluid` solver of the itsliquid
repository (`src/fluid_interactive.rs`).  The Rust code is shallowly embedded
here: the mutable `Vec<f32>` buffers become `List ℚ` values threaded through
explicit state passing, `f32` arithmetic is modelled by exact rational
arithmetic, and each Rust loop becomes a `List.foldl` over the same iteration
sequence as the source.  Float literals of the source (`0.1`, `0.001`,
`1e-10`, `0.5`, ...) are modelled by the corresponding rationals.
-/

namespace ItsLiquid

/-- State of the solver, mirroring `struct InteractiveFluid`
(src/fluid_interactive.rs lines 7-26).  All buffers are flat row-major
lists of length `width * height`, indexed by `y * width + x`. -/
structure InteractiveFluid where
  width : Nat
  height : Nat
  velocity_x : List ℚ
  velocity_y : List ℚ
  velocity_x_prev : List ℚ
  velocity_y_prev : List ℚ
  dye_r : List ℚ
  dye_g : List ℚ
  dye_b : List ℚ
  dye_r_prev : List ℚ
  dye_g_prev : List ℚ
  dye_b_prev : List ℚ
  pressure : List ℚ
  divergence : List ℚ
  dt : ℚ
  viscosity : ℚ
  dye_diffusion : ℚ
  deriving Repr, DecidableEq

/-- `InteractiveFluid::new` (lines 51-72): zero-filled buffers of length
`width * height`, `dt = 0.1`, `viscosity = 0.001`, `dye_diffusion = 0.0001`.
No dimension validation is performed by the source. -/
def InteractiveFluid.new (width height : Nat) : InteractiveFluid :=
  let size := width * height
  { width := width
    height := height
    velocity_x := List.replicate size 0
    velocity_y := List.replicate size 0
    velocity_x_prev := List.replicate size 0
    velocity_y_prev := List.replicate size 0
    dye_r := List.replicate size 0
    dye_g := List.replicate size 0
    dye_b := List.replicate size 0
    dye_r_prev := List.replicate size 0
    dye_g_prev := List.replicate size 0
    dye_b_prev := List.replicate size 0
    pressure := List.replicate size 0
    divergence := List.replicate size 0
    dt := 1/10
    viscosity := 1/1000
    dye_diffusion := 1/10000 }

/-- `InteractiveFluid::add_dye` (lines 74-81). -/
def InteractiveFluid.add_dye (s : InteractiveFluid) (x y : Nat)
    (color : ℚ × ℚ × ℚ) : InteractiveFluid :=
  if x < s.width ∧ y < s.height then
    let idx := y * s.width + x
    { s with
      dye_r := s.dye_r.set idx (s.dye_r.getD idx 0 + color.1)
      dye_g := s.dye_g.set idx (s.dye_g.getD idx 0 + color.2.1)
      dye_b := s.dye_b.set idx (s.dye_b.getD idx 0 + color.2.2) }
  else s

/-- `f32 as i32` truncation toward zero for nonnegative-or-negative rationals. -/
def ratTrunc (q : ℚ) : ℤ := if 0 ≤ q then ⌊q⌋ else ⌈q⌉

/-- Inclusive integer range `a..=b` as a list. -/
def intRangeIncl (a b : ℤ) : List ℤ :=
  (List.range (b + 1 - a).toNat).map fun (i : Nat) => a + (i : ℤ)

/-- The `(dx, dy)` offset pairs visited by the `add_force` double loop
(`for dy in (-radius as i32)..=(radius as i32)`, inner loop over `dx`). -/
def forceOffsets (ri : ℤ) : List (ℤ × ℤ) :=
  (intRangeIncl (-ri) ri).flatMap fun dy =>
    (intRangeIncl (-ri) ri).map fun dx => (dx, dy)

/-- `InteractiveFluid::add_force` (lines 83-109): adds `force * falloff`
to the velocity of every in-grid cell within squared distance `radius²`
of `(x, y)`, with `falloff = 1 - dist²/radius²`.  The `as usize` cast of a
negative coordinate produces a huge value that fails the `< width` test, so
it is modelled by a signedness check. -/
def InteractiveFluid.add_force (s : InteractiveFluid) (x y : Nat)
    (force : ℚ × ℚ) (radius : ℚ) : InteractiveFluid :=
  if x < s.width ∧ y < s.height then
    let r_sq := radius * radius
    let v := (forceOffsets (ratTrunc radius)).foldl
      (fun (v : List ℚ × List ℚ) p =>
        let px : ℤ := (x : ℤ) + p.1
        let py : ℤ := (y : ℤ) + p.2
        if 0 ≤ px ∧ px < (s.width : ℤ) ∧ 0 ≤ py ∧ py < (s.height : ℤ) then
          let dist_sq : ℚ := ((p.1 * p.1 + p.2 * p.2 : ℤ) : ℚ)
          if dist_sq ≤ r_sq then
            let idx := py.toNat * s.width + px.toNat
            let falloff := 1 - dist_sq / r_sq
            (v.1.set idx (v.1.getD idx 0 + force.1 * falloff),
             v.2.set idx (v.2.getD idx 0 + force.2 * falloff))
          else v
        else v)
      (s.velocity_x, s.velocity_y)
    { s with velocity_x := v.1, velocity_y := v.2 }
  else s

/-- Flat row-major index of the cell `(x, y)`: `idx = y * width + x`. -/
def cellIdx (w : Nat) (p : Nat × Nat) : Nat := p.2 * w + p.1

/-- The interior iteration sequence `for y in 1..h-1 { for x in 1..w-1 }`,
as the list of `(x, y)` pairs in source order. -/
def interiorCoords (w h : Nat) : List (Nat × Nat) :=
  (List.range' 1 (h - 2)).flatMap fun y =>
    (List.range' 1 (w - 2)).map fun x => (x, y)

/-- The row part of the Neumann boundary copy used for dye and pressure
(`set_dye_boundaries` lines 443-454, `set_pressure_boundaries` lines
471-475): row `0` copies row `1`, row `h-1` copies row `h-2`. -/
def copyRows (w h : Nat) (b : List ℚ) : List ℚ :=
  (List.range w).foldl
    (fun b x =>
      let b := b.set x (b.getD (w + x) 0)
      b.set ((h-1)*w + x) (b.getD ((h-2)*w + x) 0))
    b

/-- The column part of the Neumann boundary copy (lines 456-467 and
477-481): column `0` copies column `1`, column `w-1` copies column `w-2`. -/
def copyCols (w h : Nat) (b : List ℚ) : List ℚ :=
  (List.range h).foldl
    (fun b y =>
      let b := b.set (y*w) (b.getD (y*w + 1) 0)
      b.set (y*w + (w-1)) (b.getD (y*w + (w-2)) 0))
    b

/-- `InteractiveFluid::set_velocity_boundaries` (lines 426-440) on the raw
buffer pair: every border cell of both components is forced to `0`. -/
def setVelBndPair (w h : Nat) (vx vy : List ℚ) : List ℚ × List ℚ :=
  let rows := (List.range w).foldl
    (fun (v : List ℚ × List ℚ) x =>
      ((v.1.set x 0).set ((h-1)*w + x) 0,
       (v.2.set x 0).set ((h-1)*w + x) 0))
    (vx, vy)
  (List.range h).foldl
    (fun (v : List ℚ × List ℚ) y =>
      ((v.1.set (y*w) 0).set (y*w + (w-1)) 0,
       (v.2.set (y*w) 0).set (y*w + (w-1)) 0))
    rows

/-- `InteractiveFluid::set_dye_boundaries` (lines 442-468) on the raw
triple of channel buffers. -/
def setDyeBndTriple (w h : Nat) (r g b : List ℚ) :
    List ℚ × List ℚ × List ℚ :=
  let rows := (List.range w).foldl
    (fun (v : List ℚ × List ℚ × List ℚ) x =>
      ((let r := v.1.set x (v.1.getD (w + x) 0)
        r.set ((h-1)*w + x) (r.getD ((h-2)*w + x) 0)),
       (let g := v.2.1.set x (v.2.1.getD (w + x) 0)
        g.set ((h-1)*w + x) (g.getD ((h-2)*w + x) 0)),
       (let b := v.2.2.set x (v.2.2.getD (w + x) 0)
        b.set ((h-1)*w + x) (b.getD ((h-2)*w + x) 0))))
    (r, g, b)
  (List.range h).foldl
    (fun (v : List ℚ × List ℚ × List ℚ) y =>
      ((let r := v.1.set (y*w) (v.1.getD (y*w + 1) 0)
        r.set (y*w + (w-1)) (r.getD (y*w + (w-2)) 0)),
       (let g := v.2.1.set (y*w) (v.2.1.getD (y*w + 1) 0)
        g.set (y*w + (w-1)) (g.getD (y*w + (w-2)) 0)),
       (let b := v.2.2.set (y*w) (v.2.2.getD (y*w + 1) 0)
        b.set (y*w + (w-1)) (b.getD (y*w + (w-2)) 0))))
    rows

/-- State-level `set_velocity_boundaries`. -/
def InteractiveFluid.set_velocity_boundaries (s : InteractiveFluid) :
    InteractiveFluid :=
  let v := setVelBndPair s.width s.height s.velocity_x s.velocity_y
  { s with velocity_x := v.1, velocity_y := v.2 }

/-- State-level `set_dye_boundaries`. -/
def InteractiveFluid.set_dye_boundaries (s : InteractiveFluid) :
    InteractiveFluid :=
  let v := setDyeBndTriple s.width s.height s.dye_r s.dye_g s.dye_b
  { s with dye_r := v.1, dye_g := v.2.1, dye_b := v.2.2 }

/-- State-level `set_pressure_boundaries` (lines 470-482). -/
def InteractiveFluid.set_pressure_boundaries (s : InteractiveFluid) :
    InteractiveFluid :=
  { s with
    pressure := copyCols s.width s.height (copyRows s.width s.height s.pressure) }

/-- `InteractiveFluid::set_boundaries` (lines 421-424). -/
def InteractiveFluid.set_boundaries (s : InteractiveFluid) :
    InteractiveFluid :=
  s.set_velocity_boundaries.set_dye_boundaries

/-- The Jacobi coefficient of `diffuse_velocity` (line 142):
`a = dt * viscosity * (width * height) as f32`. -/
def diffuseVelocityA (s : InteractiveFluid) : ℚ :=
  s.dt * s.viscosity * ((s.width * s.height : Nat) : ℚ)

/-- The Jacobi coefficient of `diffuse_dye` (line 173):
`a = dt * dye_diffusion * (width * height) as f32`. -/
def diffuseDyeA (s : InteractiveFluid) : ℚ :=
  s.dt * s.dye_diffusion * ((s.width * s.height : Nat) : ℚ)

/-- `InteractiveFluid::diffuse_velocity` (lines 141-165): 4 in-place
Gauss-Seidel-style sweeps reading the `_prev` snapshot, with velocity
boundaries re-applied after each sweep. -/
def InteractiveFluid.diffuse_velocity (s : InteractiveFluid) :
    InteractiveFluid :=
  let w := s.width
  let a := diffuseVelocityA s
  let v := (List.range 4).foldl
    (fun (v : List ℚ × List ℚ) _ =>
      let v := (interiorCoords s.width s.height).foldl
        (fun (v : List ℚ × List ℚ) p =>
          (v.1.set (cellIdx w p) ((s.velocity_x_prev.getD (cellIdx w p) 0
              + a * (v.1.getD (cellIdx w p - 1) 0 + v.1.getD (cellIdx w p + 1) 0
                + v.1.getD (cellIdx w p - w) 0 + v.1.getD (cellIdx w p + w) 0))
              / (1 + 4*a)),
           v.2.set (cellIdx w p) ((s.velocity_y_prev.getD (cellIdx w p) 0
              + a * (v.2.getD (cellIdx w p - 1) 0 + v.2.getD (cellIdx w p + 1) 0
                + v.2.getD (cellIdx w p - w) 0 + v.2.getD (cellIdx w p + w) 0))
              / (1 + 4*a))))
        v
      setVelBndPair s.width s.height v.1 v.2)
    (s.velocity_x, s.velocity_y)
  { s with velocity_x := v.1, velocity_y := v.2 }

/-- The per-channel mass-conservation correction of `diffuse_dye`
(lines 205-227): if the channel's post total exceeds `1e-10`, every cell is
multiplied by `before / after`. -/
def channelRescale (before : ℚ) (l : List ℚ) : List ℚ :=
  let after := l.sum
  if (1 : ℚ)/10^10 < after then l.map (fun v => v * (before / after)) else l

/-- `InteractiveFluid::diffuse_dye` (lines 167-228): 2 in-place sweeps per
channel reading the `_prev` snapshots, dye boundaries after each sweep,
then the per-channel rescale against the pre-diffusion totals. -/
def InteractiveFluid.diffuse_dye (s : InteractiveFluid) : InteractiveFluid :=
  let w := s.width
  let rB := s.dye_r.sum
  let gB := s.dye_g.sum
  let bB := s.dye_b.sum
  let a := diffuseDyeA s
  let v := (List.range 2).foldl
    (fun (v : List ℚ × List ℚ × List ℚ) _ =>
      let v := (interiorCoords s.width s.height).foldl
        (fun (v : List ℚ × List ℚ × List ℚ) p =>
          (v.1.set (cellIdx w p) ((s.dye_r_prev.getD (cellIdx w p) 0
              + a * (v.1.getD (cellIdx w p - 1) 0 + v.1.getD (cellIdx w p + 1) 0
                + v.1.getD (cellIdx w p - w) 0 + v.1.getD (cellIdx w p + w) 0))
              / (1 + 4*a)),
           v.2.1.set (cellIdx w p) ((s.dye_g_prev.getD (cellIdx w p) 0
              + a * (v.2.1.getD (cellIdx w p - 1) 0 + v.2.1.getD (cellIdx w p + 1) 0
                + v.2.1.getD (cellIdx w p - w) 0 + v.2.1.getD (cellIdx w p + w) 0))
              / (1 + 4*a)),
           v.2.2.set (cellIdx w p) ((s.dye_b_prev.getD (cellIdx w p) 0
              + a * (v.2.2.getD (cellIdx w p - 1) 0 + v.2.2.getD (cellIdx w p + 1) 0
                + v.2.2.getD (cellIdx w p - w) 0 + v.2.2.getD (cellIdx w p + w) 0))
              / (1 + 4*a))))
        v
      setDyeBndTriple s.width s.height v.1 v.2.1 v.2.2)
    (s.dye_r, s.dye_g, s.dye_b)
  { s with
    dye_r := channelRescale rB v.1
    dye_g := channelRescale gB v.2.1
    dye_b := channelRescale bB v.2.2 }

/-- The clamped-backtrace bilinear sampler shared by both advection loops
(lines 236-266 and 297-332): backtrace `dt` along `(vxi, vyi)` from cell
`(x, y)`, clamp to `[0.5, dim - 1.5]`, and bilinearly interpolate `field`
at the four lattice neighbours of the source point. -/
def bilinearSample (w h : Nat) (dt vxi vyi : ℚ) (x y : Nat)
    (field : List ℚ) : ℚ :=
  let src_x := (x : ℚ) - dt * vxi
  let src_y := (y : ℚ) - dt * vyi
  let src_x := min (max src_x (1/2)) (((w - 1 : Nat) : ℚ) - 1/2)
  let src_y := min (max src_y (1/2)) (((h - 1 : Nat) : ℚ) - 1/2)
  let x0 := (⌊src_x⌋).toNat
  let x1 := x0 + 1
  let y0 := (⌊src_y⌋).toNat
  let y1 := y0 + 1
  let sx := src_x - (x0 : ℚ)
  let sy := src_y - (y0 : ℚ)
  (1 - sx) * (1 - sy) * field.getD (y0*w + x0) 0
    + sx * (1 - sy) * field.getD (y0*w + x1) 0
    + (1 - sx) * sy * field.getD (y1*w + x0) 0
    + sx * sy * field.getD (y1*w + x1) 0

/-- `InteractiveFluid::advect_velocity` (lines 230-270): every interior
cell is overwritten with a bilinear sample of the `_prev` velocity field,
backtraced along the `_prev` velocity; then velocity boundaries. -/
def InteractiveFluid.advect_velocity (s : InteractiveFluid) :
    InteractiveFluid :=
  let w := s.width
  let v := (interiorCoords s.width s.height).foldl
    (fun (v : List ℚ × List ℚ) p =>
      (v.1.set (cellIdx w p)
        (bilinearSample s.width s.height s.dt
          (s.velocity_x_prev.getD (cellIdx w p) 0)
          (s.velocity_y_prev.getD (cellIdx w p) 0) p.1 p.2 s.velocity_x_prev),
       v.2.set (cellIdx w p)
        (bilinearSample s.width s.height s.dt
          (s.velocity_x_prev.getD (cellIdx w p) 0)
          (s.velocity_y_prev.getD (cellIdx w p) 0) p.1 p.2 s.velocity_y_prev)))
    (s.velocity_x, s.velocity_y)
  let v := setVelBndPair s.width s.height v.1 v.2
  { s with velocity_x := v.1, velocity_y := v.2 }

/-- The mass-conservation rescale at the end of `advect_dye`
(lines 338-354): the three channels are rescaled by their own
`before/after` ratios, guarded by the joint condition that all three
post-advection totals exceed `1e-10`. -/
def dyeMassRescale (rb gb bb : ℚ) (r g b : List ℚ) :
    List ℚ × List ℚ × List ℚ :=
  let ra := r.sum
  let ga := g.sum
  let ba := b.sum
  if (1:ℚ)/10^10 < ra ∧ (1:ℚ)/10^10 < ga ∧ (1:ℚ)/10^10 < ba then
    (r.map (fun v => v * (rb / ra)),
     g.map (fun v => v * (gb / ga)),
     b.map (fun v => v * (bb / ba)))
  else (r, g, b)

/-- `InteractiveFluid::advect_dye` (lines 272-355): pre-advection totals
are the sums of the `_prev` snapshots; every interior dye cell is
overwritten with a bilinear sample of the `_prev` snapshot backtraced
along the current velocity; dye boundaries; then the joint mass rescale. -/
def InteractiveFluid.advect_dye (s : InteractiveFluid) : InteractiveFluid :=
  let w := s.width
  let rB := s.dye_r_prev.sum
  let gB := s.dye_g_prev.sum
  let bB := s.dye_b_prev.sum
  let v := (interiorCoords s.width s.height).foldl
    (fun (v : List ℚ × List ℚ × List ℚ) p =>
      (v.1.set (cellIdx w p)
        (bilinearSample s.width s.height s.dt (s.velocity_x.getD (cellIdx w p) 0)
          (s.velocity_y.getD (cellIdx w p) 0) p.1 p.2 s.dye_r_prev),
       v.2.1.set (cellIdx w p)
        (bilinearSample s.width s.height s.dt (s.velocity_x.getD (cellIdx w p) 0)
          (s.velocity_y.getD (cellIdx w p) 0) p.1 p.2 s.dye_g_prev),
       v.2.2.set (cellIdx w p)
        (bilinearSample s.width s.height s.dt (s.velocity_x.getD (cellIdx w p) 0)
          (s.velocity_y.getD (cellIdx w p) 0) p.1 p.2 s.dye_b_prev)))
    (s.dye_r, s.dye_g, s.dye_b)
  let v := setDyeBndTriple s.width s.height v.1 v.2.1 v.2.2
  let v := dyeMassRescale rB gB bB v.1 v.2.1 v.2.2
  { s with dye_r := v.1, dye_g := v.2.1, dye_b := v.2.2 }

/-- One Jacobi pressure sweep of `project_velocity` (lines 382-399),
returning the updated pressure buffer together with the maximum absolute
per-cell change of the sweep. -/
def pressureSweep (w h : Nat) (div p : List ℚ) : List ℚ × ℚ :=
  (interiorCoords w h).foldl
    (fun (acc : List ℚ × ℚ) q =>
      let idx := cellIdx w q
      let old := acc.1.getD idx 0
      let pnew := (div.getD idx 0 + acc.1.getD (idx-1) 0 + acc.1.getD (idx+1) 0
        + acc.1.getD (idx-w) 0 + acc.1.getD (idx+w) 0) / 4
      let change := |pnew - old|
      (acc.1.set idx pnew, if acc.2 < change then change else acc.2))
    (p, 0)

/-- The capped, adaptively converging pressure iteration of
`project_velocity` (lines 376-406): up to 20 sweeps, pressure boundaries
after each, early exit once `iter > 5` and the sweep's maximum change is
below `0.001`. -/
def pressureIterate (w h : Nat) (div : List ℚ) :
    Nat → Nat → List ℚ → List ℚ
  | 0, _, p => p
  | fuel+1, iter, p =>
    let sw := pressureSweep w h div p
    let p2 := copyCols w h (copyRows w h sw.1)
    if 5 < iter ∧ sw.2 < 1/1000 then p2
    else pressureIterate w h div fuel (iter+1) p2

/-- `InteractiveFluid::project_velocity` (lines 357-419): compute the
interior divergence and zero the interior pressure, apply pressure
boundaries, run the capped Jacobi pressure iteration, subtract the
pressure gradient from the interior velocity, and re-apply velocity
boundaries. -/
def InteractiveFluid.project_velocity (s : InteractiveFluid) :
    InteractiveFluid :=
  let w := s.width
  let hq : ℚ := 1 / (s.width : ℚ)
  let dp := (interiorCoords s.width s.height).foldl
    (fun (dp : List ℚ × List ℚ) q =>
      (dp.1.set (cellIdx w q) (-(1/2) * hq
          * (s.velocity_x.getD (cellIdx w q + 1) 0
            - s.velocity_x.getD (cellIdx w q - 1) 0
            + s.velocity_y.getD (cellIdx w q + w) 0
            - s.velocity_y.getD (cellIdx w q - w) 0)),
       dp.2.set (cellIdx w q) 0))
    (s.divergence, s.pressure)
  let p0 := copyCols s.width s.height (copyRows s.width s.height dp.2)
  let pf := pressureIterate s.width s.height dp.1 20 0 p0
  let v := (interiorCoords s.width s.height).foldl
    (fun (v : List ℚ × List ℚ) q =>
      (v.1.set (cellIdx w q) (v.1.getD (cellIdx w q) 0
          - (1/2) * (pf.getD (cellIdx w q + 1) 0 - pf.getD (cellIdx w q - 1) 0) / hq),
       v.2.set (cellIdx w q) (v.2.getD (cellIdx w q) 0
          - (1/2) * (pf.getD (cellIdx w q + w) 0 - pf.getD (cellIdx w q - w) 0) / hq)))
    (s.velocity_x, s.velocity_y)
  let v := setVelBndPair s.width s.height v.1 v.2
  { s with velocity_x := v.1, velocity_y := v.2,
           pressure := pf, divergence := dp.1 }

/-- `InteractiveFluid::step` (lines 111-139): snapshot, diffuse velocity,
project, advect velocity, project again, diffuse dye, advect dye, final
boundary enforcement. -/
def InteractiveFluid.step (s : InteractiveFluid) : InteractiveFluid :=
  let s := { s with
    velocity_x_prev := s.velocity_x
    velocity_y_prev := s.velocity_y
    dye_r_prev := s.dye_r
    dye_g_prev := s.dye_g
    dye_b_prev := s.dye_b }
  let s := s.diffuse_velocity
  let s := s.project_velocity
  let s := s.advect_velocity
  let s := s.project_velocity
  let s := s.diffuse_dye
  let s := s.advect_dye
  s.set_boundaries

/-- Comparison variant of `step` with the diffuse-dye stage removed
(the variant named by claim C2). -/
def InteractiveFluid.stepSkipDiffuseDye (s : InteractiveFluid) :
    InteractiveFluid :=
  let s := { s with
    velocity_x_prev := s.velocity_x
    velocity_y_prev := s.velocity_y
    dye_r_prev := s.dye_r
    dye_g_prev := s.dye_g
    dye_b_prev := s.dye_b }
  let s := s.diffuse_velocity
  let s := s.project_velocity
  let s := s.advect_velocity
  let s := s.project_velocity
  let s := s.advect_dye
  s.set_boundaries

/-- Comparison variant of `step` with the diffuse-velocity stage and the
first project-velocity stage removed (the variant named by claim C4). -/
def InteractiveFluid.stepSkipVelocityPrep (s : InteractiveFluid) :
    InteractiveFluid :=
  let s := { s with
    velocity_x_prev := s.velocity_x
    velocity_y_prev := s.velocity_y
    dye_r_prev := s.dye_r
    dye_g_prev := s.dye_g
    dye_b_prev := s.dye_b }
  let s := s.advect_velocity
  let s := s.project_velocity
  let s := s.diffuse_dye
  let s := s.advect_dye
  s.set_boundaries

/-- The divergence of the current velocity field at cell `(x, y)`, using
the discretization of `project_velocity` (lines 364-368). -/
def divergenceAt (s : InteractiveFluid) (x y : Nat) : ℚ :=
  let w := s.width
  let idx := y * w + x
  let d : ℚ := -(1/2) * (1 / (s.width : ℚ))
    * (s.velocity_x.getD (idx+1) 0 - s.velocity_x.getD (idx-1) 0
      + s.velocity_y.getD (idx+w) 0 - s.velocity_y.getD (idx-w) 0)
  d

/-- Mean absolute divergence over the interior cells (the measure used by
the spec's divergence-reduction property). -/
def meanAbsInteriorDivergence (s : InteractiveFluid) : ℚ :=
  (((interiorCoords s.width s.height).map fun p =>
      |divergenceAt s p.1 p.2|).sum)
    / ((interiorCoords s.width s.height).length : ℚ)

/-- Well-formedness: every buffer has length `width * height`. -/
def WF (s : InteractiveFluid) : Prop :=
  s.velocity_x.length = s.width * s.height ∧
  s.velocity_y.length = s.width * s.height ∧
  s.velocity_x_prev.length = s.width * s.height ∧
  s.velocity_y_prev.length = s.width * s.height ∧
  s.dye_r.length = s.width * s.height ∧
  s.dye_g.length = s.width * s.height ∧
  s.dye_b.length = s.width * s.height ∧
  s.dye_r_prev.length = s.width * s.height ∧
  s.dye_g_prev.length = s.width * s.height ∧
  s.dye_b_prev.length = s.width * s.height ∧
  s.pressure.length = s.width * s.height ∧
  s.divergence.length = s.width * s.height

instance (s : InteractiveFluid) : Decidable (WF s) := by
  unfold WF; infer_instance

/-! ### Generic lemmas about folds of `List.set` writes -/

theorem foldl_pair_split {α : Type} (l : List α)
    (f : List ℚ → α → List ℚ) (g : List ℚ → α → List ℚ) (b₁ b₂ : List ℚ) :
    l.foldl (fun v p => (f v.1 p, g v.2 p)) (b₁, b₂) =
      (l.foldl f b₁, l.foldl g b₂) := by
  induction l generalizing b₁ b₂ with
  | nil => rfl
  | cons p t ih => simpa using ih (f b₁ p) (g b₂ p)

theorem foldl_triple_split {α : Type} (l : List α)
    (f g k : List ℚ → α → List ℚ) (b₁ b₂ b₃ : List ℚ) :
    l.foldl (fun v p => (f v.1 p, g v.2.1 p, k v.2.2 p)) (b₁, b₂, b₃) =
      (l.foldl f b₁, l.foldl g b₂, l.foldl k b₃) := by
  induction l generalizing b₁ b₂ b₃ with
  | nil => rfl
  | cons p t ih => simpa using ih (f b₁ p) (g b₂ p) (k b₃ p)

/-- Gathering a fold of writes whose values depend only on the written
index: the result holds `F j` at every written in-range index and is
untouched elsewhere. -/
theorem getElem?_foldl_set_pure {α : Type} (l : List α) (idxOf : α → Nat)
    (F : Nat → ℚ) (b : List ℚ) (j : Nat) :
    (l.foldl (fun acc p => acc.set (idxOf p) (F (idxOf p))) b)[j]? =
      if j ∈ l.map idxOf ∧ j < b.length then some (F j) else b[j]? := by
  induction l generalizing b with
  | nil => simp
  | cons p t ih =>
    simp only [List.foldl_cons, List.map_cons, List.mem_cons]
    rw [ih]
    by_cases h3 : idxOf p = j
    · subst h3
      by_cases h1 : idxOf p ∈ t.map idxOf <;> by_cases h2 : idxOf p < b.length <;>
        simp [List.length_set, List.getElem?_set, h1, h2] <;> omega
    · by_cases h1 : j ∈ t.map idxOf <;> by_cases h2 : j < b.length <;>
        simp [List.length_set, List.getElem?_set, h1, h2, h3, Ne.symm h3] <;> omega

/-- Variant of `getElem?_foldl_set_pure` for loop bodies doing two writes
per iteration, both with index-determined values. -/
theorem getElem?_foldl_set2_pure {α : Type} (l : List α)
    (idx1 idx2 : α → Nat) (F : Nat → ℚ) (b : List ℚ) (j : Nat) :
    (l.foldl (fun acc p =>
        (acc.set (idx1 p) (F (idx1 p))).set (idx2 p) (F (idx2 p))) b)[j]? =
      if (j ∈ l.map idx1 ∨ j ∈ l.map idx2) ∧ j < b.length then some (F j)
      else b[j]? := by
  induction l generalizing b with
  | nil => simp
  | cons p t ih =>
    simp only [List.foldl_cons, List.map_cons, List.mem_cons]
    rw [ih]
    by_cases h3 : idx1 p = j <;> by_cases h4 : idx2 p = j
    · subst h3
      by_cases h2 : idx1 p < b.length <;>
        by_cases h1 : idx1 p ∈ t.map idx1 <;> by_cases h1' : idx1 p ∈ t.map idx2 <;>
        simp [List.length_set, List.getElem?_set, h1, h1', h2, h4] <;> omega
    · subst h3
      by_cases h2 : idx1 p < b.length <;>
        by_cases h1 : idx1 p ∈ t.map idx1 <;> by_cases h1' : idx1 p ∈ t.map idx2 <;>
        simp [List.length_set, List.getElem?_set, h1, h1', h2, h4] <;> omega
    · subst h4
      by_cases h2 : idx2 p < b.length <;>
        by_cases h1 : idx2 p ∈ t.map idx1 <;> by_cases h1' : idx2 p ∈ t.map idx2 <;>
        simp [List.length_set, List.getElem?_set, h1, h1', h2, h3] <;> omega
    · by_cases h2 : j < b.length <;>
        by_cases h1 : j ∈ t.map idx1 <;> by_cases h1' : j ∈ t.map idx2 <;>
        simp [List.length_set, List.getElem?_set, h1, h1', h2, h3, h4,
          Ne.symm h3, Ne.symm h4] <;> omega

/-- A fold preserves any invariant preserved by its body. -/
theorem foldl_invariant {α β : Type} (P : β → Prop) (l : List α)
    (f : β → α → β) (b : β) (hb : P b)
    (hf : ∀ acc p, p ∈ l → P acc → P (f acc p)) : P (l.foldl f b) := by
  induction l generalizing b with
  | nil => exact hb
  | cons p t ih =>
    exact ih (f b p) (hf b p (by simp) hb)
      (fun acc q hq => hf acc q (by simp [hq]))

theorem length_foldl_set {α : Type} (l : List α)
    (f : List ℚ → α → List ℚ) (b : List ℚ)
    (hf : ∀ acc p, p ∈ l → (f acc p).length = acc.length) :
    (l.foldl f b).length = b.length := by
  induction l generalizing b with
  | nil => rfl
  | cons p t ih =>
    rw [List.foldl_cons, ih (f b p) (fun acc q hq => hf acc q (by simp [hq]))]
    exact hf b p (by simp)


/-! ### Row-major index arithmetic -/

theorem rowcol_div {w x y : Nat} (hx : x < w) : (y * w + x) / w = y := by
  rw [Nat.mul_comm, Nat.mul_add_div (by omega), Nat.div_eq_of_lt hx, Nat.add_zero]

theorem rowcol_mod {w x y : Nat} (hx : x < w) : (y * w + x) % w = x := by
  rw [Nat.mul_comm, Nat.mul_add_mod, Nat.mod_eq_of_lt hx]

/-- Interior predicate on flat indices: the decoded column is in
`[1, w-2]` and the decoded row is in `[1, h-2]`. -/
def isInterior (w h j : Nat) : Prop :=
  1 ≤ j % w ∧ j % w < w - 1 ∧ 1 ≤ j / w ∧ j / w < h - 1

instance (w h j : Nat) : Decidable (isInterior w h j) := by
  unfold isInterior; infer_instance

theorem mem_interiorCoords {w h : Nat} {p : Nat × Nat} :
    p ∈ interiorCoords w h ↔
      1 ≤ p.1 ∧ p.1 < w - 1 ∧ 1 ≤ p.2 ∧ p.2 < h - 1 := by
  obtain ⟨x, y⟩ := p
  simp only [interiorCoords, List.mem_flatMap, List.mem_map, List.mem_range'_1,
    Prod.mk.injEq]
  constructor
  · rintro ⟨y', ⟨hy1, hy2⟩, x', ⟨hx1, hx2⟩, hxx, hyy⟩
    subst hxx; subst hyy
    omega
  · rintro ⟨hx1, hx2, hy1, hy2⟩
    exact ⟨y, ⟨hy1, by omega⟩, x, ⟨hx1, by omega⟩, rfl, rfl⟩

theorem isInterior_of_mem {w h : Nat} {p : Nat × Nat}
    (hp : p ∈ interiorCoords w h) : isInterior w h (p.2 * w + p.1) := by
  have h1 := mem_interiorCoords.mp hp
  have hx : p.1 < w := by omega
  refine ⟨?_, ?_, ?_, ?_⟩
  · rw [rowcol_mod hx]; omega
  · rw [rowcol_mod hx]; omega
  · rw [rowcol_div hx]; omega
  · rw [rowcol_div hx]; omega

theorem isInterior_mem_map {w h j : Nat} :
    j ∈ (interiorCoords w h).map (fun p => p.2 * w + p.1) ↔
      isInterior w h j := by
  rw [List.mem_map]
  constructor
  · rintro ⟨p, hp, rfl⟩
    exact isInterior_of_mem hp
  · rintro ⟨h1, h2, h3, h4⟩
    have hw : 0 < w := by omega
    refine ⟨(j % w, j / w), mem_interiorCoords.mpr ?_, ?_⟩
    · exact ⟨h1, h2, h3, h4⟩
    · simp only
      rw [Nat.mul_comm]
      exact Nat.div_add_mod j w

theorem isInterior_lt {w h j : Nat} (hj : isInterior w h j) : j < w * h := by
  obtain ⟨h1, h2, h3, h4⟩ := hj
  have hw : 2 ≤ w := by omega
  have hjw : j % w < w := Nat.mod_lt _ (by omega)
  have hdm : w * (j / w) + j % w = j := Nat.div_add_mod j w
  have hdiv : j / w + 1 ≤ h := by omega
  calc j = w * (j / w) + j % w := hdm.symm
    _ < w * (j / w) + w := by omega
    _ = w * (j / w + 1) := by ring
    _ ≤ w * h := Nat.mul_le_mul_left w hdiv

theorem isInterior_decode {w h j : Nat} (hj : isInterior w h j) :
    (j / w) * w + j % w = j := by
  rw [Nat.mul_comm]
  exact Nat.div_add_mod j w

/-- A border index: decoded column `0` or `w-1`, or decoded row `0` or
`h-1`. -/
def isBorder (w h j : Nat) : Prop :=
  j % w = 0 ∨ j % w = w - 1 ∨ j / w = 0 ∨ j / w = h - 1

instance (w h j : Nat) : Decidable (isBorder w h j) := by
  unfold isBorder; infer_instance

theorem not_isInterior_iff_isBorder {w h j : Nat} (hw : 3 ≤ w) (hh : 3 ≤ h)
    (hj : j < w * h) : ¬ isInterior w h j ↔ isBorder w h j := by
  have hjw : j % w < w := Nat.mod_lt _ (by omega)
  have hjh : j / w < h := Nat.div_lt_of_lt_mul hj
  have key : ∀ m d : Nat, m < w → d < h →
      ((¬(1 ≤ m ∧ m < w - 1 ∧ 1 ≤ d ∧ d < h - 1)) ↔
        (m = 0 ∨ m = w - 1 ∨ d = 0 ∨ d = h - 1)) := by
    intro m d hm hd
    omega
  exact key (j % w) (j / w) hjw hjh

/-! ### Pointwise description of the boundary copy loops -/

theorem getElem?_eq_some_getD {l : List ℚ} {i : Nat} (h : i < l.length) :
    l[i]? = some (l.getD i 0) := by
  rw [List.getD_eq_getElem?_getD, List.getElem?_eq_getElem h]
  rfl

theorem length_copyRows {w h : Nat} (b : List ℚ) :
    (copyRows w h b).length = b.length := by
  unfold copyRows
  exact length_foldl_set _ _ _ (fun acc p _ => by simp)

theorem length_copyCols {w h : Nat} (b : List ℚ) :
    (copyCols w h b).length = b.length := by
  unfold copyCols
  exact length_foldl_set _ _ _ (fun acc p _ => by simp)

theorem copyRows_aux {w h : Nat} (hw : 0 < w) (hh : 3 ≤ h) (b : List ℚ)
    (hb : b.length = w * h) (k : Nat) (hk : k ≤ w) :
    ∀ j, j < w * h →
    ((List.range k).foldl
      (fun b x =>
        let b := b.set x (b.getD (w + x) 0)
        b.set ((h-1)*w + x) (b.getD ((h-2)*w + x) 0)) b)[j]? =
      if j / w = 0 ∧ j % w < k then b[w + j]?
      else if j / w = h - 1 ∧ j % w < k then b[j - w]? else b[j]? := by
  have e1 : (h-2)*w + w = (h-1)*w := by
    have hh1 : h - 1 = (h-2) + 1 := by omega
    rw [hh1, Nat.add_mul, Nat.one_mul]
  have e2 : (h-1)*w + w = h*w := by
    have hh2 : h = (h-1) + 1 := by omega
    conv_rhs => rw [hh2]
    rw [Nat.add_mul, Nat.one_mul]
  have e3 : w * h = h * w := Nat.mul_comm w h
  induction k with
  | zero =>
    intro j hj
    simp only [List.range_zero, List.foldl_nil]
    rw [if_neg (by omega), if_neg (by omega)]
  | succ k ih =>
    intro j hj
    have hkw : k < w := by omega
    have ihk := ih (by omega)
    set acc := (List.range k).foldl
      (fun b x =>
        let b := b.set x (b.getD (w + x) 0)
        b.set ((h-1)*w + x) (b.getD ((h-2)*w + x) 0)) b with hacc
    have hlacc : acc.length = w * h := by
      rw [hacc, length_foldl_set _ _ _ (fun acc p _ => by simp)]
      exact hb
    rw [List.range_succ, List.foldl_append]
    simp only [List.foldl_cons, List.foldl_nil, ← hacc]
    have hr1le : w + k < w * h := by omega
    have hr1d : (w + k) / w = 1 := by
      have hwk : w + k = 1 * w + k := by ring
      rw [hwk, rowcol_div hkw]
    have hr1m : (w + k) % w = k := by
      have hwk : w + k = 1 * w + k := by ring
      rw [hwk, rowcol_mod hkw]
    have hread1 : acc.getD (w + k) 0 = b.getD (w + k) 0 := by
      have hx := ihk (w + k) hr1le
      rw [hr1d, hr1m, if_neg (by omega), if_neg (by omega)] at hx
      rw [List.getD_eq_getElem?_getD, List.getD_eq_getElem?_getD, hx]
    have hr2le : (h-2)*w + k < w * h := by omega
    have hr2d : ((h-2)*w + k) / w = h - 2 := rowcol_div hkw
    have hr2m : ((h-2)*w + k) % w = k := rowcol_mod hkw
    have hne12 : (h-2)*w + k ≠ k := by
      have hpos : 0 < (h-2)*w := Nat.mul_pos (by omega) hw
      omega
    have hread2 : (acc.set k (acc.getD (w + k) 0)).getD ((h-2)*w + k) 0 =
        b.getD ((h-2)*w + k) 0 := by
      rw [List.getD_eq_getElem?_getD, List.getElem?_set_ne (Ne.symm hne12)]
      have hx := ihk ((h-2)*w + k) hr2le
      rw [hr2d, hr2m, if_neg (by omega), if_neg (by omega)] at hx
      rw [hx, ← List.getD_eq_getElem?_getD]
    rw [hread2]
    have hbrow : (h-1)*w + k < w * h := by omega
    by_cases hj1 : j = (h-1)*w + k
    · subst hj1
      rw [List.getElem?_set_eq_of_lt _ (by simp only [List.length_set, hlacc]; omega)]
      have hjd : ((h-1)*w + k) / w = h - 1 := rowcol_div hkw
      have hjm : ((h-1)*w + k) % w = k := rowcol_mod hkw
      rw [hjd, hjm, if_neg (by omega), if_pos ⟨rfl, by omega⟩]
      have hsub : (h-1)*w + k - w = (h-2)*w + k := by omega
      rw [hsub, getElem?_eq_some_getD (by omega)]
    · rw [List.getElem?_set_ne (fun hc => hj1 hc.symm)]
      by_cases hj2 : j = k
      · subst hj2
        rw [List.getElem?_set_eq_of_lt _ (by omega)]
        have hjd : j / w = 0 := Nat.div_eq_of_lt hkw
        have hjm : j % w = j := Nat.mod_eq_of_lt hkw
        rw [hjd, hjm, if_pos ⟨rfl, by omega⟩, hread1,
          getElem?_eq_some_getD (by omega)]
      · rw [List.getElem?_set_ne (fun hc => hj2 hc.symm), ihk j hj]
        have hdm : w * (j / w) + j % w = j := Nat.div_add_mod j w
        by_cases hd0 : j / w = 0
        · have hmk : j % w ≠ k := by
            intro hc
            apply hj2
            rw [hd0, Nat.mul_zero, hc] at hdm
            omega
          have hd1 : j / w ≠ h - 1 := by omega
          by_cases hmlt : j % w < k
          · rw [if_pos (show j/w = 0 ∧ j%w < k from ⟨hd0, hmlt⟩),
              if_pos (show j/w = 0 ∧ j%w < k+1 from ⟨hd0, by omega⟩)]
          · rw [if_neg (show ¬(j/w = 0 ∧ j%w < k) from fun hc => hmlt hc.2),
              if_neg (show ¬(j/w = h-1 ∧ j%w < k) from fun hc => hd1 hc.1),
              if_neg (show ¬(j/w = 0 ∧ j%w < k+1) from by omega),
              if_neg (show ¬(j/w = h-1 ∧ j%w < k+1) from fun hc => hd1 hc.1)]
        · by_cases hd1 : j / w = h - 1
          · have hmk : j % w ≠ k := by
              intro hc
              apply hj1
              rw [← hdm, hd1, hc]
              ring
            by_cases hmlt : j % w < k
            · rw [if_neg (show ¬(j/w = 0 ∧ j%w < k) from fun hc => hd0 hc.1),
                if_pos (show j/w = h-1 ∧ j%w < k from ⟨hd1, hmlt⟩),
                if_neg (show ¬(j/w = 0 ∧ j%w < k+1) from fun hc => hd0 hc.1),
                if_pos (show j/w = h-1 ∧ j%w < k+1 from ⟨hd1, by omega⟩)]
            · rw [if_neg (show ¬(j/w = 0 ∧ j%w < k) from fun hc => hd0 hc.1),
                if_neg (show ¬(j/w = h-1 ∧ j%w < k) from fun hc => hmlt hc.2),
                if_neg (show ¬(j/w = 0 ∧ j%w < k+1) from fun hc => hd0 hc.1),
                if_neg (show ¬(j/w = h-1 ∧ j%w < k+1) from by omega)]
          · rw [if_neg (show ¬(j/w = 0 ∧ j%w < k) from fun hc => hd0 hc.1),
              if_neg (show ¬(j/w = h-1 ∧ j%w < k) from fun hc => hd1 hc.1),
              if_neg (show ¬(j/w = 0 ∧ j%w < k+1) from fun hc => hd0 hc.1),
              if_neg (show ¬(j/w = h-1 ∧ j%w < k+1) from fun hc => hd1 hc.1)]

theorem copyRows_getElem? {w h : Nat} (hw : 0 < w) (hh : 3 ≤ h) (b : List ℚ)
    (hb : b.length = w * h) (j : Nat) (hj : j < w * h) :
    (copyRows w h b)[j]? =
      if j / w = 0 then b[w + j]?
      else if j / w = h - 1 then b[j - w]? else b[j]? := by
  have hjm : j % w < w := Nat.mod_lt _ hw
  have := copyRows_aux hw hh b hb w (Nat.le_refl w) j hj
  unfold copyRows
  rw [this]
  by_cases h1 : j / w = 0 <;> by_cases h2 : j / w = h - 1 <;>
    simp [h1, h2, hjm]

theorem copyCols_aux {w h : Nat} (hw : 3 ≤ w) (hh : 0 < h) (b : List ℚ)
    (hb : b.length = w * h) (k : Nat) (hk : k ≤ h) :
    ∀ j, j < w * h →
    ((List.range k).foldl
      (fun b y =>
        let b := b.set (y*w) (b.getD (y*w + 1) 0)
        b.set (y*w + (w-1)) (b.getD (y*w + (w-2)) 0)) b)[j]? =
      if j % w = 0 ∧ j / w < k then b[j + 1]?
      else if j % w = w - 1 ∧ j / w < k then b[j - 1]? else b[j]? := by
  induction k with
  | zero =>
    intro j hj
    simp only [List.range_zero, List.foldl_nil]
    rw [if_neg (fun hc => Nat.not_lt_zero _ hc.2),
      if_neg (fun hc => Nat.not_lt_zero _ hc.2)]
  | succ k ih =>
    intro j hj
    have hkh : k < h := by omega
    have e3 : w * h = h * w := Nat.mul_comm w h
    have ihk := ih (by omega)
    set acc := (List.range k).foldl
      (fun b y =>
        let b := b.set (y*w) (b.getD (y*w + 1) 0)
        b.set (y*w + (w-1)) (b.getD (y*w + (w-2)) 0)) b with hacc
    have hlacc : acc.length = w * h := by
      rw [hacc, length_foldl_set _ _ _ (fun acc p _ => by simp)]
      exact hb
    rw [List.range_succ, List.foldl_append]
    simp only [List.foldl_cons, List.foldl_nil, ← hacc]
    have hkwh : k * w + w ≤ w * h := by
      have hws : (k+1) * w ≤ h * w := Nat.mul_le_mul_right w (by omega)
      have : (k+1) * w = k*w + w := by ring
      omega
    have hr1le : k*w + 1 < w * h := by omega
    have hr1d : (k*w + 1) / w = k := rowcol_div (by omega)
    have hr1m : (k*w + 1) % w = 1 := rowcol_mod (by omega)
    have hread1 : acc.getD (k*w + 1) 0 = b.getD (k*w + 1) 0 := by
      have hx := ihk (k*w + 1) hr1le
      rw [hr1d, hr1m, if_neg (by omega), if_neg (by omega)] at hx
      rw [List.getD_eq_getElem?_getD, List.getD_eq_getElem?_getD, hx]
    have hr2le : k*w + (w-2) < w * h := by omega
    have hr2d : (k*w + (w-2)) / w = k := rowcol_div (by omega)
    have hr2m : (k*w + (w-2)) % w = w - 2 := rowcol_mod (by omega)
    have hne12 : k*w + (w-2) ≠ k*w := by omega
    have hread2 : (acc.set (k*w) (acc.getD (k*w + 1) 0)).getD (k*w + (w-2)) 0 =
        b.getD (k*w + (w-2)) 0 := by
      rw [List.getD_eq_getElem?_getD, List.getElem?_set_ne (Ne.symm hne12)]
      have hx := ihk (k*w + (w-2)) hr2le
      rw [hr2d, hr2m, if_neg (by omega), if_neg (by omega)] at hx
      rw [hx, ← List.getD_eq_getElem?_getD]
    rw [hread2]
    by_cases hj1 : j = k*w + (w-1)
    · subst hj1
      rw [List.getElem?_set_eq_of_lt _ (by simp only [List.length_set, hlacc]; omega)]
      have hjd : (k*w + (w-1)) / w = k := rowcol_div (by omega)
      have hjm : (k*w + (w-1)) % w = w - 1 := rowcol_mod (by omega)
      rw [hjd, hjm, if_neg (by omega), if_pos ⟨rfl, by omega⟩]
      have hsub : k*w + (w-1) - 1 = k*w + (w-2) := by omega
      rw [hsub, getElem?_eq_some_getD (by omega)]
    · rw [List.getElem?_set_ne (fun hc => hj1 hc.symm)]
      by_cases hj2 : j = k*w
      · rw [hj2]
        rw [List.getElem?_set_eq_of_lt _ (by omega)]
        have hjd : (k*w) / w = k := Nat.mul_div_cancel k (by omega)
        have hjm : (k*w) % w = 0 := Nat.mul_mod_left k w
        rw [hjd, hjm, if_pos ⟨rfl, by omega⟩, hread1,
          getElem?_eq_some_getD (by omega)]
      · rw [List.getElem?_set_ne (fun hc => hj2 hc.symm), ihk j hj]
        have hdm : w * (j / w) + j % w = j := Nat.div_add_mod j w
        by_cases hm0 : j % w = 0
        · have hdk : j / w ≠ k := by
            intro hc
            apply hj2
            rw [hc, hm0, Nat.add_zero] at hdm
            rw [← hdm]
            ring
          have hm1 : j % w ≠ w - 1 := by omega
          by_cases hdlt : j / w < k
          · rw [if_pos (show j%w = 0 ∧ j/w < k from ⟨hm0, hdlt⟩),
              if_pos (show j%w = 0 ∧ j/w < k+1 from ⟨hm0, Nat.lt_succ_of_lt hdlt⟩)]
          · have hge : ¬ (j / w < k + 1) := by
              intro hc
              rcases Nat.lt_succ_iff_lt_or_eq.mp hc with hlt | heq
              · exact hdlt hlt
              · exact hdk heq
            rw [if_neg (show ¬(j%w = 0 ∧ j/w < k) from fun hc => hdlt hc.2),
              if_neg (show ¬(j%w = w-1 ∧ j/w < k) from fun hc => hm1 hc.1),
              if_neg (show ¬(j%w = 0 ∧ j/w < k+1) from fun hc => hge hc.2),
              if_neg (show ¬(j%w = w-1 ∧ j/w < k+1) from fun hc => hm1 hc.1)]
        · by_cases hm1 : j % w = w - 1
          · have hdk : j / w ≠ k := by
              intro hc
              apply hj1
              rw [← hdm, hc, hm1]
              ring
            by_cases hdlt : j / w < k
            · rw [if_neg (show ¬(j%w = 0 ∧ j/w < k) from fun hc => hm0 hc.1),
                if_pos (show j%w = w-1 ∧ j/w < k from ⟨hm1, hdlt⟩),
                if_neg (show ¬(j%w = 0 ∧ j/w < k+1) from fun hc => hm0 hc.1),
                if_pos (show j%w = w-1 ∧ j/w < k+1 from ⟨hm1, Nat.lt_succ_of_lt hdlt⟩)]
            · have hge : ¬ (j / w < k + 1) := by
                intro hc
                rcases Nat.lt_succ_iff_lt_or_eq.mp hc with hlt | heq
                · exact hdlt hlt
                · exact hdk heq
              rw [if_neg (show ¬(j%w = 0 ∧ j/w < k) from fun hc => hm0 hc.1),
                if_neg (show ¬(j%w = w-1 ∧ j/w < k) from fun hc => hdlt hc.2),
                if_neg (show ¬(j%w = 0 ∧ j/w < k+1) from fun hc => hm0 hc.1),
                if_neg (show ¬(j%w = w-1 ∧ j/w < k+1) from fun hc => hge hc.2)]
          · rw [if_neg (show ¬(j%w = 0 ∧ j/w < k) from fun hc => hm0 hc.1),
              if_neg (show ¬(j%w = w-1 ∧ j/w < k) from fun hc => hm1 hc.1),
              if_neg (show ¬(j%w = 0 ∧ j/w < k+1) from fun hc => hm0 hc.1),
              if_neg (show ¬(j%w = w-1 ∧ j/w < k+1) from fun hc => hm1 hc.1)]

theorem copyCols_getElem? {w h : Nat} (hw : 3 ≤ w) (hh : 0 < h) (b : List ℚ)
    (hb : b.length = w * h) (j : Nat) (hj : j < w * h) :
    (copyCols w h b)[j]? =
      if j % w = 0 then b[j + 1]?
      else if j % w = w - 1 then b[j - 1]? else b[j]? := by
  have hjd : j / w < h := Nat.div_lt_of_lt_mul hj
  have := copyCols_aux hw hh b hb h (Nat.le_refl h) j hj
  unfold copyCols
  rw [this]
  by_cases h1 : j % w = 0 <;> by_cases h2 : j % w = w - 1 <;>
    simp [h1, h2, hjd]

/-! ### Pointwise description of the velocity boundary loops -/

theorem rowZero_getElem? (w h : Nat) (b : List ℚ) (j : Nat) :
    ((List.range w).foldl (fun b x => (b.set x 0).set ((h-1)*w + x) 0) b)[j]? =
      if (j ∈ (List.range w).map (fun x => x) ∨
          j ∈ (List.range w).map (fun x => (h-1)*w + x)) ∧ j < b.length
      then some 0 else b[j]? := by
  simpa using getElem?_foldl_set2_pure (List.range w) (fun x => x)
    (fun x => (h-1)*w + x) (fun _ => 0) b j

theorem colZero_getElem? (w h : Nat) (b : List ℚ) (j : Nat) :
    ((List.range h).foldl (fun b y => (b.set (y*w) 0).set (y*w + (w-1)) 0) b)[j]? =
      if (j ∈ (List.range h).map (fun y => y*w) ∨
          j ∈ (List.range h).map (fun y => y*w + (w-1))) ∧ j < b.length
      then some 0 else b[j]? := by
  simpa using getElem?_foldl_set2_pure (List.range h) (fun y => y*w)
    (fun y => y*w + (w-1)) (fun _ => 0) b j

theorem mem_rowWrites {w h j : Nat} (hw : 0 < w) (hh : 0 < h) (hj : j < w * h) :
    ((j ∈ (List.range w).map (fun x => x) ∨
      j ∈ (List.range w).map (fun x => (h-1)*w + x)) ↔
      (j / w = 0 ∨ j / w = h - 1)) := by
  simp only [List.mem_map, List.mem_range]
  constructor
  · rintro (⟨x, hx, rfl⟩ | ⟨x, hx, rfl⟩)
    · exact Or.inl (Nat.div_eq_of_lt hx)
    · exact Or.inr (rowcol_div hx)
  · have hdm : w * (j / w) + j % w = j := Nat.div_add_mod j w
    have hjw : j % w < w := Nat.mod_lt _ hw
    rintro (hd | hd)
    · refine Or.inl ⟨j, ?_, rfl⟩
      rw [hd, Nat.mul_zero, Nat.zero_add] at hdm
      omega
    · refine Or.inr ⟨j % w, hjw, ?_⟩
      rw [hd] at hdm
      rw [Nat.mul_comm] at hdm
      exact hdm

theorem mem_colWrites {w h j : Nat} (hw : 0 < w) (hh : 0 < h) (hj : j < w * h) :
    ((j ∈ (List.range h).map (fun y => y*w) ∨
      j ∈ (List.range h).map (fun y => y*w + (w-1))) ↔
      (j % w = 0 ∨ j % w = w - 1)) := by
  simp only [List.mem_map, List.mem_range]
  have hdm : w * (j / w) + j % w = j := Nat.div_add_mod j w
  have hjw : j % w < w := Nat.mod_lt _ hw
  have hjh : j / w < h := Nat.div_lt_of_lt_mul hj
  constructor
  · rintro (⟨y, hy, rfl⟩ | ⟨y, hy, rfl⟩)
    · exact Or.inl (Nat.mul_mod_left y w)
    · exact Or.inr (rowcol_mod (by omega))
  · rintro (hm | hm)
    · refine Or.inl ⟨j / w, hjh, ?_⟩
      rw [hm, Nat.add_zero] at hdm
      rw [Nat.mul_comm (j / w) w]
      exact hdm
    · refine Or.inr ⟨j / w, hjh, ?_⟩
      rw [hm] at hdm
      rw [Nat.mul_comm (j / w) w]
      exact hdm

theorem length_rowZero {w h : Nat} (b : List ℚ) :
    ((List.range w).foldl (fun b x => (b.set x 0).set ((h-1)*w + x) 0) b).length =
      b.length :=
  length_foldl_set _ _ _ (fun acc p _ => by simp)

theorem length_colZero {w h : Nat} (b : List ℚ) :
    ((List.range h).foldl (fun b y => (b.set (y*w) 0).set (y*w + (w-1)) 0) b).length =
      b.length :=
  length_foldl_set _ _ _ (fun acc p _ => by simp)

/-- The single-buffer velocity boundary operation: borders zeroed, the
rest untouched. -/
theorem velBnd1_getElem? {w h : Nat} (hw : 0 < w) (hh : 0 < h) (b : List ℚ)
    (hb : b.length = w * h) (j : Nat) (hj : j < w * h) :
    ((List.range h).foldl (fun b y => (b.set (y*w) 0).set (y*w + (w-1)) 0)
      ((List.range w).foldl (fun b x => (b.set x 0).set ((h-1)*w + x) 0) b))[j]? =
      if isBorder w h j then some 0 else b[j]? := by
  rw [colZero_getElem?, rowZero_getElem?, length_rowZero, hb]
  simp only [mem_colWrites hw hh hj, mem_rowWrites hw hh hj]
  unfold isBorder
  by_cases h1 : j % w = 0 ∨ j % w = w - 1
  · rw [if_pos ⟨h1, hj⟩, if_pos (by tauto)]
  · rw [if_neg (fun hc => h1 hc.1)]
    by_cases h2 : j / w = 0 ∨ j / w = h - 1
    · rw [if_pos ⟨h2, hj⟩, if_pos (by tauto)]
    · rw [if_neg (fun hc => h2 hc.1), if_neg (by tauto)]

/-! ### Interior passes as pointwise updates -/

/-- An interior pass writing a value `G p` at every interior cell, where
`G` is recoverable from the flat index by `F`, acts pointwise. -/
theorem interior_pass_getElem? {w h : Nat} (G : Nat × Nat → ℚ) (F : Nat → ℚ)
    (hGF : ∀ p ∈ interiorCoords w h, G p = F (cellIdx w p))
    (b : List ℚ) (j : Nat) :
    ((interiorCoords w h).foldl (fun acc p => acc.set (cellIdx w p) (G p)) b)[j]? =
      if isInterior w h j ∧ j < b.length then some (F j) else b[j]? := by
  rw [List.foldl_ext (fun acc p => acc.set (cellIdx w p) (G p))
    (fun acc p => acc.set (cellIdx w p) (F (cellIdx w p))) b
    (fun acc p hp => by simp only [hGF p hp])]
  rw [getElem?_foldl_set_pure (interiorCoords w h) (cellIdx w) F b j]
  have hmm : (j ∈ (interiorCoords w h).map (cellIdx w)) ↔ isInterior w h j := by
    rw [show (cellIdx w) = (fun p : Nat × Nat => p.2 * w + p.1) from rfl]
    exact isInterior_mem_map
  by_cases h1 : j ∈ (interiorCoords w h).map (cellIdx w) <;>
    by_cases h2 : j < b.length <;>
    simp [h1, h2, hmm.symm]

theorem setVelBndPair_eq (w h : Nat) (vx vy : List ℚ) :
    setVelBndPair w h vx vy =
      ((List.range h).foldl (fun b y => (b.set (y*w) 0).set (y*w + (w-1)) 0)
        ((List.range w).foldl (fun b x => (b.set x 0).set ((h-1)*w + x) 0) vx),
       (List.range h).foldl (fun b y => (b.set (y*w) 0).set (y*w + (w-1)) 0)
        ((List.range w).foldl (fun b x => (b.set x 0).set ((h-1)*w + x) 0) vy)) := by
  unfold setVelBndPair
  rw [foldl_pair_split (List.range w) (fun a x => (a.set x 0).set ((h-1)*w + x) 0)
    (fun a x => (a.set x 0).set ((h-1)*w + x) 0) vx vy]
  rw [foldl_pair_split (List.range h) (fun a y => (a.set (y*w) 0).set (y*w + (w-1)) 0)
    (fun a y => (a.set (y*w) 0).set (y*w + (w-1)) 0)]

theorem setDyeBndTriple_eq (w h : Nat) (r g b : List ℚ) :
    setDyeBndTriple w h r g b =
      (copyCols w h (copyRows w h r), copyCols w h (copyRows w h g),
       copyCols w h (copyRows w h b)) := by
  unfold setDyeBndTriple
  rw [foldl_triple_split (List.range w)
    (fun a x => (let c := a.set x (a.getD (w + x) 0)
      c.set ((h-1)*w + x) (c.getD ((h-2)*w + x) 0)))
    (fun a x => (let c := a.set x (a.getD (w + x) 0)
      c.set ((h-1)*w + x) (c.getD ((h-2)*w + x) 0)))
    (fun a x => (let c := a.set x (a.getD (w + x) 0)
      c.set ((h-1)*w + x) (c.getD ((h-2)*w + x) 0))) r g b]
  rw [foldl_triple_split (List.range h)
    (fun a y => (let c := a.set (y*w) (a.getD (y*w + 1) 0)
      c.set (y*w + (w-1)) (c.getD (y*w + (w-2)) 0)))
    (fun a y => (let c := a.set (y*w) (a.getD (y*w + 1) 0)
      c.set (y*w + (w-1)) (c.getD (y*w + (w-2)) 0)))
    (fun a y => (let c := a.set (y*w) (a.getD (y*w + 1) 0)
      c.set (y*w + (w-1)) (c.getD (y*w + (w-2)) 0)))]
  rfl

/-! ### The boundary copy depends only on interior values -/

theorem copyRows_agree_midcol {w h : Nat} (hw : 3 ≤ w) (hh : 3 ≤ h)
    (b q : List ℚ) (hb : b.length = w * h) (hq : q.length = w * h)
    (hagree : ∀ j, isInterior w h j → b[j]? = q[j]?) :
    ∀ k, k < w * h → 1 ≤ k % w → k % w < w - 1 →
      (copyRows w h b)[k]? = (copyRows w h q)[k]? := by
  intro k hk hk1 hk2
  have hkw : k % w < w := Nat.mod_lt _ (by omega)
  have hkh : k / w < h := Nat.div_lt_of_lt_mul hk
  have hdm : w * (k / w) + k % w = k := Nat.div_add_mod k w
  rw [copyRows_getElem? (by omega) hh b hb k hk,
    copyRows_getElem? (by omega) hh q hq k hk]
  by_cases h0 : k / w = 0
  · rw [if_pos h0, if_pos h0]
    have hklt : k < w := by
      rw [h0, Nat.mul_zero, Nat.zero_add] at hdm
      omega
    have he : w + k = 1 * w + k := by ring
    have hd : (w + k) / w = 1 := by rw [he, rowcol_div hklt]
    have hm : (w + k) % w = k := by rw [he, rowcol_mod hklt]
    have hkk : k % w = k := Nat.mod_eq_of_lt hklt
    apply hagree
    refine ⟨?_, ?_, ?_, ?_⟩
    · rw [hm]; omega
    · rw [hm]; omega
    · rw [hd]
    · rw [hd]; omega
  · rw [if_neg h0, if_neg h0]
    by_cases h1 : k / w = h - 1
    · rw [if_pos h1, if_pos h1]
      have hke : k = (h-1) * w + k % w := by
        conv_lhs => rw [← hdm]
        rw [h1]
        ring
      have he1 : (h-1)*w = (h-2)*w + w := by
        have hh1 : h - 1 = (h-2) + 1 := by omega
        rw [hh1, Nat.add_mul, Nat.one_mul]
      have hke2 : k = (h-2)*w + w + k % w := by
        conv_lhs => rw [hke]
        rw [he1]
      have hsub : k - w = (h-2) * w + k % w := by omega
      have hd : (k - w) / w = h - 2 := by rw [hsub]; exact rowcol_div hkw
      have hm : (k - w) % w = k % w := by rw [hsub]; exact rowcol_mod hkw
      apply hagree
      refine ⟨?_, ?_, ?_, ?_⟩
      · rw [hm]; omega
      · rw [hm]; omega
      · rw [hd]; omega
      · rw [hd]; omega
    · rw [if_neg h1, if_neg h1]
      exact hagree k ⟨hk1, hk2, Nat.one_le_iff_ne_zero.mpr h0,
        lt_of_le_of_ne (Nat.le_pred_of_lt hkh) h1⟩

theorem copyCols_eq_of_agree_midcol {w h : Nat} (hw : 3 ≤ w) (hh : 3 ≤ h)
    (b q : List ℚ) (hb : b.length = w * h) (hq : q.length = w * h)
    (hagree : ∀ k, k < w * h → 1 ≤ k % w → k % w < w - 1 → b[k]? = q[k]?) :
    copyCols w h b = copyCols w h q := by
  apply List.ext_getElem?
  intro i
  by_cases hi : i < w * h
  · rw [copyCols_getElem? hw (by omega) b hb i hi,
      copyCols_getElem? hw (by omega) q hq i hi]
    have hiw : i % w < w := Nat.mod_lt _ (by omega)
    have hih : i / w < h := Nat.div_lt_of_lt_mul hi
    have hdm : w * (i / w) + i % w = i := Nat.div_add_mod i w
    have hcc : w * (i / w) = (i / w) * w := Nat.mul_comm _ _
    have hmul : w * (i / w) + w ≤ w * h := by
      have hle := Nat.mul_le_mul_left w (show i / w + 1 ≤ h by omega)
      rw [Nat.mul_add, Nat.mul_one] at hle
      exact hle
    by_cases h0 : i % w = 0
    · rw [if_pos h0, if_pos h0]
      apply hagree
      · omega
      · have he : i + 1 = (i/w) * w + 1 := by omega
        rw [he, rowcol_mod (by omega)]
      · have he : i + 1 = (i/w) * w + 1 := by omega
        rw [he, rowcol_mod (by omega)]
        omega
    · rw [if_neg h0, if_neg h0]
      by_cases h1 : i % w = w - 1
      · rw [if_pos h1, if_pos h1]
        apply hagree
        · omega
        · have he : i - 1 = (i/w) * w + (w-2) := by omega
          rw [he, rowcol_mod (by omega)]
          omega
        · have he : i - 1 = (i/w) * w + (w-2) := by omega
          rw [he, rowcol_mod (by omega)]
          omega
      · rw [if_neg h1, if_neg h1]
        exact hagree i hi (by omega) (by omega)
  · rw [List.getElem?_eq_none, List.getElem?_eq_none]
    · rw [length_copyCols, hq]; omega
    · rw [length_copyCols, hb]; omega

/-- The full dye/pressure boundary operation yields equal buffers whenever
the inputs agree on all interior cells. -/
theorem copyColsRows_eq_of_interior_agree {w h : Nat} (hw : 3 ≤ w) (hh : 3 ≤ h)
    (b q : List ℚ) (hb : b.length = w * h) (hq : q.length = w * h)
    (hagree : ∀ j, isInterior w h j → b[j]? = q[j]?) :
    copyCols w h (copyRows w h b) = copyCols w h (copyRows w h q) := by
  apply copyCols_eq_of_agree_midcol hw hh _ _
    (by rw [length_copyRows, hb]) (by rw [length_copyRows, hq])
  intro k hk hk1 hk2
  exact copyRows_agree_midcol hw hh b q hb hq hagree k hk hk1 hk2

/-! ### Dye advection is insensitive to the pre-advection dye buffers -/

theorem length_interior_pass {w h : Nat} (G : Nat × Nat → ℚ) (b : List ℚ) :
    ((interiorCoords w h).foldl (fun acc p => acc.set (cellIdx w p) (G p)) b).length
      = b.length :=
  length_foldl_set _ _ _ (fun acc p _ => by simp)

/-- Two interior passes writing the same value function agree on every
interior cell, regardless of the buffers they started from. -/
theorem interior_pass_agree {w h : Nat} (G : Nat × Nat → ℚ) (F : Nat → ℚ)
    (hGF : ∀ p ∈ interiorCoords w h, G p = F (cellIdx w p))
    (b q : List ℚ) (hb : b.length = w * h) (hq : q.length = w * h) :
    ∀ j, isInterior w h j →
      ((interiorCoords w h).foldl (fun acc p => acc.set (cellIdx w p) (G p)) b)[j]? =
      ((interiorCoords w h).foldl (fun acc p => acc.set (cellIdx w p) (G p)) q)[j]? := by
  intro j hj
  rw [interior_pass_getElem? G F hGF b j, interior_pass_getElem? G F hGF q j]
  have hlt := isInterior_lt hj
  rw [if_pos ⟨hj, by omega⟩, if_pos ⟨hj, by omega⟩]

/-- The value sampled by `advect_dye` at an interior cell, as a function
of the flat index. -/
def advectSampleF (w h : Nat) (dt : ℚ) (vx vy fieldPrev : List ℚ) (j : Nat) : ℚ :=
  bilinearSample w h dt (vx.getD j 0) (vy.getD j 0) (j % w) (j / w) fieldPrev

theorem advectSample_GF {w h : Nat} (dt : ℚ) (vx vy fp : List ℚ) :
    ∀ p ∈ interiorCoords w h,
      bilinearSample w h dt (vx.getD (cellIdx w p) 0) (vy.getD (cellIdx w p) 0)
        p.1 p.2 fp = advectSampleF w h dt vx vy fp (cellIdx w p) := by
  intro p hp
  have hx : p.1 < w := by
    have := mem_interiorCoords.mp hp
    omega
  unfold advectSampleF
  unfold cellIdx
  rw [rowcol_mod hx, rowcol_div hx]

/-- The boundary-corrected advected dye triple does not depend on the dye
buffers as they stood before advection. -/
theorem advect_triple_eq {w h : Nat} (dt : ℚ) (vx vy rp gp bp : List ℚ)
    (hw : 3 ≤ w) (hh : 3 ≤ h) (r g b r' g' b' : List ℚ)
    (hr : r.length = w*h) (hg : g.length = w*h) (hb : b.length = w*h)
    (hr' : r'.length = w*h) (hg' : g'.length = w*h) (hb' : b'.length = w*h) :
    (fun t : List ℚ × List ℚ × List ℚ => setDyeBndTriple w h t.1 t.2.1 t.2.2)
      ((interiorCoords w h).foldl
        (fun (v : List ℚ × List ℚ × List ℚ) p =>
          (v.1.set (cellIdx w p)
            (bilinearSample w h dt (vx.getD (cellIdx w p) 0)
              (vy.getD (cellIdx w p) 0) p.1 p.2 rp),
           v.2.1.set (cellIdx w p)
            (bilinearSample w h dt (vx.getD (cellIdx w p) 0)
              (vy.getD (cellIdx w p) 0) p.1 p.2 gp),
           v.2.2.set (cellIdx w p)
            (bilinearSample w h dt (vx.getD (cellIdx w p) 0)
              (vy.getD (cellIdx w p) 0) p.1 p.2 bp))) (r, g, b)) =
    (fun t : List ℚ × List ℚ × List ℚ => setDyeBndTriple w h t.1 t.2.1 t.2.2)
      ((interiorCoords w h).foldl
        (fun (v : List ℚ × List ℚ × List ℚ) p =>
          (v.1.set (cellIdx w p)
            (bilinearSample w h dt (vx.getD (cellIdx w p) 0)
              (vy.getD (cellIdx w p) 0) p.1 p.2 rp),
           v.2.1.set (cellIdx w p)
            (bilinearSample w h dt (vx.getD (cellIdx w p) 0)
              (vy.getD (cellIdx w p) 0) p.1 p.2 gp),
           v.2.2.set (cellIdx w p)
            (bilinearSample w h dt (vx.getD (cellIdx w p) 0)
              (vy.getD (cellIdx w p) 0) p.1 p.2 bp))) (r', g', b')) := by
  rw [foldl_triple_split (interiorCoords w h)
    (fun a p => a.set (cellIdx w p)
      (bilinearSample w h dt (vx.getD (cellIdx w p) 0) (vy.getD (cellIdx w p) 0) p.1 p.2 rp))
    (fun a p => a.set (cellIdx w p)
      (bilinearSample w h dt (vx.getD (cellIdx w p) 0) (vy.getD (cellIdx w p) 0) p.1 p.2 gp))
    (fun a p => a.set (cellIdx w p)
      (bilinearSample w h dt (vx.getD (cellIdx w p) 0) (vy.getD (cellIdx w p) 0) p.1 p.2 bp))
    r g b,
    foldl_triple_split (interiorCoords w h)
    (fun a p => a.set (cellIdx w p)
      (bilinearSample w h dt (vx.getD (cellIdx w p) 0) (vy.getD (cellIdx w p) 0) p.1 p.2 rp))
    (fun a p => a.set (cellIdx w p)
      (bilinearSample w h dt (vx.getD (cellIdx w p) 0) (vy.getD (cellIdx w p) 0) p.1 p.2 gp))
    (fun a p => a.set (cellIdx w p)
      (bilinearSample w h dt (vx.getD (cellIdx w p) 0) (vy.getD (cellIdx w p) 0) p.1 p.2 bp))
    r' g' b']
  simp only [setDyeBndTriple_eq]
  have key : ∀ (fp x x' : List ℚ), x.length = w*h → x'.length = w*h →
      copyCols w h (copyRows w h ((interiorCoords w h).foldl
        (fun a p => a.set (cellIdx w p)
          (bilinearSample w h dt (vx.getD (cellIdx w p) 0)
            (vy.getD (cellIdx w p) 0) p.1 p.2 fp)) x)) =
      copyCols w h (copyRows w h ((interiorCoords w h).foldl
        (fun a p => a.set (cellIdx w p)
          (bilinearSample w h dt (vx.getD (cellIdx w p) 0)
            (vy.getD (cellIdx w p) 0) p.1 p.2 fp)) x')) := by
    intro fp x x' hx hx'
    exact copyColsRows_eq_of_interior_agree hw hh _ _
      (by rw [length_interior_pass]; exact hx)
      (by rw [length_interior_pass]; exact hx')
      (interior_pass_agree _ (advectSampleF w h dt vx vy fp)
        (advectSample_GF dt vx vy fp) _ _ hx hx')
  rw [key rp r r' hr hr', key gp g g' hg hg', key bp b b' hb hb']

/-- `advect_dye` gives the same state whatever the current dye buffers
were: they are fully overwritten before being read. -/
theorem advect_dye_eq_of_dye (u : InteractiveFluid) (r' g' b' : List ℚ)
    (hw : 3 ≤ u.width) (hh : 3 ≤ u.height)
    (hr : u.dye_r.length = u.width * u.height)
    (hg : u.dye_g.length = u.width * u.height)
    (hb : u.dye_b.length = u.width * u.height)
    (hr' : r'.length = u.width * u.height)
    (hg' : g'.length = u.width * u.height)
    (hb' : b'.length = u.width * u.height) :
    ({u with dye_r := r', dye_g := g', dye_b := b'} : InteractiveFluid).advect_dye
      = u.advect_dye := by
  have key := advect_triple_eq u.dt u.velocity_x u.velocity_y
    u.dye_r_prev u.dye_g_prev u.dye_b_prev hw hh
    u.dye_r u.dye_g u.dye_b r' g' b' hr hg hb hr' hg' hb'
  dsimp only at key
  unfold InteractiveFluid.advect_dye
  dsimp only
  rw [key]

/-! ### Length preservation -/

theorem length_setDyeBndTriple (w h : Nat) (r g b : List ℚ) :
    (setDyeBndTriple w h r g b).1.length = r.length ∧
    (setDyeBndTriple w h r g b).2.1.length = g.length ∧
    (setDyeBndTriple w h r g b).2.2.length = b.length := by
  rw [setDyeBndTriple_eq]
  refine ⟨?_, ?_, ?_⟩ <;> simp [length_copyCols, length_copyRows]

theorem length_setVelBndPair (w h : Nat) (vx vy : List ℚ) :
    (setVelBndPair w h vx vy).1.length = vx.length ∧
    (setVelBndPair w h vx vy).2.length = vy.length := by
  rw [setVelBndPair_eq]
  refine ⟨?_, ?_⟩ <;> simp [length_colZero, length_rowZero]

theorem length_channelRescale (before : ℚ) (l : List ℚ) :
    (channelRescale before l).length = l.length := by
  unfold channelRescale
  dsimp only
  split <;> simp

theorem length_dyeMassRescale (rb gb bb : ℚ) (r g b : List ℚ) :
    (dyeMassRescale rb gb bb r g b).1.length = r.length ∧
    (dyeMassRescale rb gb bb r g b).2.1.length = g.length ∧
    (dyeMassRescale rb gb bb r g b).2.2.length = b.length := by
  unfold dyeMassRescale
  dsimp only
  split <;> simp

theorem length_pressureSweep (w h : Nat) (d p : List ℚ) :
    (pressureSweep w h d p).1.length = p.length := by
  unfold pressureSweep
  exact foldl_invariant (fun acc : List ℚ × ℚ => acc.1.length = p.length)
    (interiorCoords w h) _ (p, 0) rfl
    (fun acc q _ hP => by simp only [List.length_set]; exact hP)

theorem length_pressureIterate (w h : Nat) (d : List ℚ) :
    ∀ (fuel iter : Nat) (p : List ℚ),
      (pressureIterate w h d fuel iter p).length = p.length := by
  intro fuel
  induction fuel with
  | zero => intro iter p; rfl
  | succ n ih =>
    intro iter p
    unfold pressureIterate
    dsimp only
    split
    · rw [length_copyCols, length_copyRows, length_pressureSweep]
    · rw [ih, length_copyCols, length_copyRows, length_pressureSweep]

theorem diffuse_velocity_lengths (s : InteractiveFluid) :
    (s.diffuse_velocity).velocity_x.length = s.velocity_x.length ∧
    (s.diffuse_velocity).velocity_y.length = s.velocity_y.length := by
  unfold InteractiveFluid.diffuse_velocity
  dsimp only
  exact foldl_invariant
    (fun v : List ℚ × List ℚ =>
      v.1.length = s.velocity_x.length ∧ v.2.length = s.velocity_y.length)
    (List.range 4) _ _ ⟨rfl, rfl⟩
    (fun acc n _ hP => by
      refine ⟨?_, ?_⟩
      · rw [(length_setVelBndPair s.width s.height _ _).1]
        exact (foldl_invariant
          (fun v : List ℚ × List ℚ =>
            v.1.length = s.velocity_x.length ∧ v.2.length = s.velocity_y.length)
          (interiorCoords s.width s.height) _ acc hP
          (fun a q _ hQ => by
            simp only [List.length_set]; exact ⟨hQ.1, hQ.2⟩)).1
      · rw [(length_setVelBndPair s.width s.height _ _).2]
        exact (foldl_invariant
          (fun v : List ℚ × List ℚ =>
            v.1.length = s.velocity_x.length ∧ v.2.length = s.velocity_y.length)
          (interiorCoords s.width s.height) _ acc hP
          (fun a q _ hQ => by
            simp only [List.length_set]; exact ⟨hQ.1, hQ.2⟩)).2)

theorem advect_velocity_lengths (s : InteractiveFluid) :
    (s.advect_velocity).velocity_x.length = s.velocity_x.length ∧
    (s.advect_velocity).velocity_y.length = s.velocity_y.length := by
  unfold InteractiveFluid.advect_velocity
  dsimp only
  refine ⟨?_, ?_⟩
  · rw [(length_setVelBndPair s.width s.height _ _).1]
    exact (foldl_invariant
      (fun v : List ℚ × List ℚ =>
        v.1.length = s.velocity_x.length ∧ v.2.length = s.velocity_y.length)
      (interiorCoords s.width s.height) _ (s.velocity_x, s.velocity_y) ⟨rfl, rfl⟩
      (fun a q _ hQ => by simp only [List.length_set]; exact ⟨hQ.1, hQ.2⟩)).1
  · rw [(length_setVelBndPair s.width s.height _ _).2]
    exact (foldl_invariant
      (fun v : List ℚ × List ℚ =>
        v.1.length = s.velocity_x.length ∧ v.2.length = s.velocity_y.length)
      (interiorCoords s.width s.height) _ (s.velocity_x, s.velocity_y) ⟨rfl, rfl⟩
      (fun a q _ hQ => by simp only [List.length_set]; exact ⟨hQ.1, hQ.2⟩)).2

theorem project_velocity_lengths (s : InteractiveFluid) :
    (s.project_velocity).velocity_x.length = s.velocity_x.length ∧
    (s.project_velocity).velocity_y.length = s.velocity_y.length ∧
    (s.project_velocity).pressure.length = s.pressure.length ∧
    (s.project_velocity).divergence.length = s.divergence.length := by
  unfold InteractiveFluid.project_velocity
  dsimp only
  refine ⟨?_, ?_, ?_, ?_⟩
  · rw [(length_setVelBndPair s.width s.height _ _).1]
    exact (foldl_invariant
      (fun v : List ℚ × List ℚ =>
        v.1.length = s.velocity_x.length ∧ v.2.length = s.velocity_y.length)
      (interiorCoords s.width s.height) _ (s.velocity_x, s.velocity_y) ⟨rfl, rfl⟩
      (fun a q _ hQ => by simp only [List.length_set]; exact ⟨hQ.1, hQ.2⟩)).1
  · rw [(length_setVelBndPair s.width s.height _ _).2]
    exact (foldl_invariant
      (fun v : List ℚ × List ℚ =>
        v.1.length = s.velocity_x.length ∧ v.2.length = s.velocity_y.length)
      (interiorCoords s.width s.height) _ (s.velocity_x, s.velocity_y) ⟨rfl, rfl⟩
      (fun a q _ hQ => by simp only [List.length_set]; exact ⟨hQ.1, hQ.2⟩)).2
  · rw [length_pressureIterate, length_copyCols, length_copyRows]
    exact (foldl_invariant
      (fun v : List ℚ × List ℚ =>
        v.1.length = s.divergence.length ∧ v.2.length = s.pressure.length)
      (interiorCoords s.width s.height) _ (s.divergence, s.pressure) ⟨rfl, rfl⟩
      (fun a q _ hQ => by simp only [List.length_set]; exact ⟨hQ.1, hQ.2⟩)).2
  · exact (foldl_invariant
      (fun v : List ℚ × List ℚ =>
        v.1.length = s.divergence.length ∧ v.2.length = s.pressure.length)
      (interiorCoords s.width s.height) _ (s.divergence, s.pressure) ⟨rfl, rfl⟩
      (fun a q _ hQ => by simp only [List.length_set]; exact ⟨hQ.1, hQ.2⟩)).1

theorem diffuse_dye_lengths (s : InteractiveFluid) :
    (s.diffuse_dye).dye_r.length = s.dye_r.length ∧
    (s.diffuse_dye).dye_g.length = s.dye_g.length ∧
    (s.diffuse_dye).dye_b.length = s.dye_b.length := by
  unfold InteractiveFluid.diffuse_dye
  dsimp only
  refine ⟨?_, ?_, ?_⟩ <;> rw [length_channelRescale]
  · exact (foldl_invariant
      (fun v : List ℚ × List ℚ × List ℚ =>
        v.1.length = s.dye_r.length ∧ v.2.1.length = s.dye_g.length ∧
          v.2.2.length = s.dye_b.length)
      (List.range 2) _ (s.dye_r, s.dye_g, s.dye_b) ⟨rfl, rfl, rfl⟩
      (fun acc n _ hP => by
        dsimp only
        refine ⟨?_, ?_, ?_⟩
        · rw [(length_setDyeBndTriple s.width s.height _ _ _).1]
          exact (foldl_invariant
          (fun v : List ℚ × List ℚ × List ℚ =>
            v.1.length = s.dye_r.length ∧ v.2.1.length = s.dye_g.length ∧
              v.2.2.length = s.dye_b.length)
          (interiorCoords s.width s.height) _ acc hP
          (fun a q _ hQ => by
            simp only [List.length_set]; exact ⟨hQ.1, hQ.2.1, hQ.2.2⟩)).1
        · rw [(length_setDyeBndTriple s.width s.height _ _ _).2.1]
          exact (foldl_invariant
          (fun v : List ℚ × List ℚ × List ℚ =>
            v.1.length = s.dye_r.length ∧ v.2.1.length = s.dye_g.length ∧
              v.2.2.length = s.dye_b.length)
          (interiorCoords s.width s.height) _ acc hP
          (fun a q _ hQ => by
            simp only [List.length_set]; exact ⟨hQ.1, hQ.2.1, hQ.2.2⟩)).2.1
        · rw [(length_setDyeBndTriple s.width s.height _ _ _).2.2]
          exact (foldl_invariant
          (fun v : List ℚ × List ℚ × List ℚ =>
            v.1.length = s.dye_r.length ∧ v.2.1.length = s.dye_g.length ∧
              v.2.2.length = s.dye_b.length)
          (interiorCoords s.width s.height) _ acc hP
          (fun a q _ hQ => by
            simp only [List.length_set]; exact ⟨hQ.1, hQ.2.1, hQ.2.2⟩)).2.2)).1
  · exact (foldl_invariant
      (fun v : List ℚ × List ℚ × List ℚ =>
        v.1.length = s.dye_r.length ∧ v.2.1.length = s.dye_g.length ∧
          v.2.2.length = s.dye_b.length)
      (List.range 2) _ (s.dye_r, s.dye_g, s.dye_b) ⟨rfl, rfl, rfl⟩
      (fun acc n _ hP => by
        dsimp only
        refine ⟨?_, ?_, ?_⟩
        · rw [(length_setDyeBndTriple s.width s.height _ _ _).1]
          exact (foldl_invariant
          (fun v : List ℚ × List ℚ × List ℚ =>
            v.1.length = s.dye_r.length ∧ v.2.1.length = s.dye_g.length ∧
              v.2.2.length = s.dye_b.length)
          (interiorCoords s.width s.height) _ acc hP
          (fun a q _ hQ => by
            simp only [List.length_set]; exact ⟨hQ.1, hQ.2.1, hQ.2.2⟩)).1
        · rw [(length_setDyeBndTriple s.width s.height _ _ _).2.1]
          exact (foldl_invariant
          (fun v : List ℚ × List ℚ × List ℚ =>
            v.1.length = s.dye_r.length ∧ v.2.1.length = s.dye_g.length ∧
              v.2.2.length = s.dye_b.length)
          (interiorCoords s.width s.height) _ acc hP
          (fun a q _ hQ => by
            simp only [List.length_set]; exact ⟨hQ.1, hQ.2.1, hQ.2.2⟩)).2.1
        · rw [(length_setDyeBndTriple s.width s.height _ _ _).2.2]
          exact (foldl_invariant
          (fun v : List ℚ × List ℚ × List ℚ =>
            v.1.length = s.dye_r.length ∧ v.2.1.length = s.dye_g.length ∧
              v.2.2.length = s.dye_b.length)
          (interiorCoords s.width s.height) _ acc hP
          (fun a q _ hQ => by
            simp only [List.length_set]; exact ⟨hQ.1, hQ.2.1, hQ.2.2⟩)).2.2)).2.1
  · exact (foldl_invariant
      (fun v : List ℚ × List ℚ × List ℚ =>
        v.1.length = s.dye_r.length ∧ v.2.1.length = s.dye_g.length ∧
          v.2.2.length = s.dye_b.length)
      (List.range 2) _ (s.dye_r, s.dye_g, s.dye_b) ⟨rfl, rfl, rfl⟩
      (fun acc n _ hP => by
        dsimp only
        refine ⟨?_, ?_, ?_⟩
        · rw [(length_setDyeBndTriple s.width s.height _ _ _).1]
          exact (foldl_invariant
          (fun v : List ℚ × List ℚ × List ℚ =>
            v.1.length = s.dye_r.length ∧ v.2.1.length = s.dye_g.length ∧
              v.2.2.length = s.dye_b.length)
          (interiorCoords s.width s.height) _ acc hP
          (fun a q _ hQ => by
            simp only [List.length_set]; exact ⟨hQ.1, hQ.2.1, hQ.2.2⟩)).1
        · rw [(length_setDyeBndTriple s.width s.height _ _ _).2.1]
          exact (foldl_invariant
          (fun v : List ℚ × List ℚ × List ℚ =>
            v.1.length = s.dye_r.length ∧ v.2.1.length = s.dye_g.length ∧
              v.2.2.length = s.dye_b.length)
          (interiorCoords s.width s.height) _ acc hP
          (fun a q _ hQ => by
            simp only [List.length_set]; exact ⟨hQ.1, hQ.2.1, hQ.2.2⟩)).2.1
        · rw [(length_setDyeBndTriple s.width s.height _ _ _).2.2]
          exact (foldl_invariant
          (fun v : List ℚ × List ℚ × List ℚ =>
            v.1.length = s.dye_r.length ∧ v.2.1.length = s.dye_g.length ∧
              v.2.2.length = s.dye_b.length)
          (interiorCoords s.width s.height) _ acc hP
          (fun a q _ hQ => by
            simp only [List.length_set]; exact ⟨hQ.1, hQ.2.1, hQ.2.2⟩)).2.2)).2.2

theorem advect_dye_lengths (s : InteractiveFluid) :
    (s.advect_dye).dye_r.length = s.dye_r.length ∧
    (s.advect_dye).dye_g.length = s.dye_g.length ∧
    (s.advect_dye).dye_b.length = s.dye_b.length := by
  unfold InteractiveFluid.advect_dye
  dsimp only
  refine ⟨?_, ?_, ?_⟩
  · rw [(length_dyeMassRescale _ _ _ _ _ _).1,
      (length_setDyeBndTriple s.width s.height _ _ _).1]
    exact (foldl_invariant
      (fun v : List ℚ × List ℚ × List ℚ =>
        v.1.length = s.dye_r.length ∧ v.2.1.length = s.dye_g.length ∧
          v.2.2.length = s.dye_b.length)
      (interiorCoords s.width s.height) _ (s.dye_r, s.dye_g, s.dye_b)
      ⟨rfl, rfl, rfl⟩
      (fun a q _ hQ => by
        simp only [List.length_set]; exact ⟨hQ.1, hQ.2.1, hQ.2.2⟩)).1
  · rw [(length_dyeMassRescale _ _ _ _ _ _).2.1,
      (length_setDyeBndTriple s.width s.height _ _ _).2.1]
    exact (foldl_invariant
      (fun v : List ℚ × List ℚ × List ℚ =>
        v.1.length = s.dye_r.length ∧ v.2.1.length = s.dye_g.length ∧
          v.2.2.length = s.dye_b.length)
      (interiorCoords s.width s.height) _ (s.dye_r, s.dye_g, s.dye_b)
      ⟨rfl, rfl, rfl⟩
      (fun a q _ hQ => by
        simp only [List.length_set]; exact ⟨hQ.1, hQ.2.1, hQ.2.2⟩)).2.1
  · rw [(length_dyeMassRescale _ _ _ _ _ _).2.2,
      (length_setDyeBndTriple s.width s.height _ _ _).2.2]
    exact (foldl_invariant
      (fun v : List ℚ × List ℚ × List ℚ =>
        v.1.length = s.dye_r.length ∧ v.2.1.length = s.dye_g.length ∧
          v.2.2.length = s.dye_b.length)
      (interiorCoords s.width s.height) _ (s.dye_r, s.dye_g, s.dye_b)
      ⟨rfl, rfl, rfl⟩
      (fun a q _ hQ => by
        simp only [List.length_set]; exact ⟨hQ.1, hQ.2.1, hQ.2.2⟩)).2.2

theorem set_boundaries_lengths (s : InteractiveFluid) :
    (s.set_boundaries).velocity_x.length = s.velocity_x.length ∧
    (s.set_boundaries).velocity_y.length = s.velocity_y.length ∧
    (s.set_boundaries).dye_r.length = s.dye_r.length ∧
    (s.set_boundaries).dye_g.length = s.dye_g.length ∧
    (s.set_boundaries).dye_b.length = s.dye_b.length := by
  unfold InteractiveFluid.set_boundaries
    InteractiveFluid.set_velocity_boundaries InteractiveFluid.set_dye_boundaries
  dsimp only
  have h1 := length_setVelBndPair s.width s.height s.velocity_x s.velocity_y
  have h2 := length_setDyeBndTriple s.width s.height s.dye_r s.dye_g s.dye_b
  exact ⟨h1.1, h1.2, h2.1, h2.2.1, h2.2.2⟩

/-! ### C2: the diffuse-dye stage is dead code inside `step` -/

theorem diffuse_dye_then_advect (t : InteractiveFluid)
    (hw : 3 ≤ t.width) (hh : 3 ≤ t.height)
    (hr : t.dye_r.length = t.width * t.height)
    (hg : t.dye_g.length = t.width * t.height)
    (hb : t.dye_b.length = t.width * t.height) :
    (t.diffuse_dye).advect_dye = t.advect_dye := by
  have hshape : t.diffuse_dye =
      { t with dye_r := (t.diffuse_dye).dye_r,
               dye_g := (t.diffuse_dye).dye_g,
               dye_b := (t.diffuse_dye).dye_b } := rfl
  have hl := diffuse_dye_lengths t
  rw [hshape]
  exact advect_dye_eq_of_dye t _ _ _ hw hh hr hg hb
    (hl.1.trans hr) (hl.2.1.trans hg) (hl.2.2.trans hb)

/-- C2: for every well-formed state on a grid at least 3×3, `step` produces
exactly the same state as the variant that skips the diffuse-dye stage:
`advect_dye` overwrites every interior dye cell from the start-of-step
`_prev` snapshots, the dye boundaries are recopied from the interior, and
the rescale uses the `_prev` sums, so dye diffusion has no observable
effect. -/
theorem C2_step_eq_stepSkipDiffuseDye (s : InteractiveFluid)
    (hWF : WF s) (hw : 3 ≤ s.width) (hh : 3 ≤ s.height) :
    s.step = s.stepSkipDiffuseDye := by
  unfold InteractiveFluid.step InteractiveFluid.stepSkipDiffuseDye
  dsimp only
  congr 1
  exact diffuse_dye_then_advect _ hw hh hWF.2.2.2.2.1 hWF.2.2.2.2.2.1
    hWF.2.2.2.2.2.2.1

/-- Witness for C2 at the concrete state `new 3 3`. -/
theorem C2_step_eq_stepSkipDiffuseDye_witness :
    WF (InteractiveFluid.new 3 3) ∧ 3 ≤ (InteractiveFluid.new 3 3).width ∧
      3 ≤ (InteractiveFluid.new 3 3).height ∧
      (InteractiveFluid.new 3 3).step
        = (InteractiveFluid.new 3 3).stepSkipDiffuseDye :=
  ⟨by decide, by decide, by decide,
    C2_step_eq_stepSkipDiffuseDye (InteractiveFluid.new 3 3)
      (by decide) (by decide) (by decide)⟩

/-! ### C7: border velocity cells are exactly zero after `step` -/

theorem set_boundaries_velocity_border (u : InteractiveFluid)
    (hw : 0 < u.width) (hh : 0 < u.height)
    (hx : u.velocity_x.length = u.width * u.height)
    (hy : u.velocity_y.length = u.width * u.height)
    (j : Nat) (hj : j < u.width * u.height)
    (hbd : isBorder u.width u.height j) :
    (u.set_boundaries).velocity_x[j]? = some 0 ∧
      (u.set_boundaries).velocity_y[j]? = some 0 := by
  unfold InteractiveFluid.set_boundaries InteractiveFluid.set_dye_boundaries
    InteractiveFluid.set_velocity_boundaries
  dsimp only
  rw [setVelBndPair_eq]
  dsimp only
  constructor
  · rw [velBnd1_getElem? hw hh u.velocity_x hx j hj, if_pos hbd]
  · rw [velBnd1_getElem? hw hh u.velocity_y hy j hj, if_pos hbd]

theorem stepCore_velocity_lengths (s0 : InteractiveFluid) :
    (s0.diffuse_velocity.project_velocity.advect_velocity.project_velocity.diffuse_dye.advect_dye).velocity_x.length
        = s0.velocity_x.length ∧
      (s0.diffuse_velocity.project_velocity.advect_velocity.project_velocity.diffuse_dye.advect_dye).velocity_y.length
        = s0.velocity_y.length := by
  have a1 := diffuse_velocity_lengths s0
  have a2 := project_velocity_lengths s0.diffuse_velocity
  have a3 := advect_velocity_lengths s0.diffuse_velocity.project_velocity
  have a4 := project_velocity_lengths
    s0.diffuse_velocity.project_velocity.advect_velocity
  exact ⟨a4.1.trans (a3.1.trans (a2.1.trans a1.1)),
    a4.2.1.trans (a3.2.trans (a2.2.1.trans a1.2))⟩

/-- C7: after `step` returns on a well-formed grid of size at least 3×3,
every border cell (row `0`, row `h-1`, column `0`, column `w-1`) holds
velocity exactly `(0, 0)`: the final `set_boundaries` zeroes both velocity
components on every border index, and the subsequent dye-boundary pass
leaves velocity untouched. -/
theorem C7_step_border_velocity_zero (s : InteractiveFluid) (hWF : WF s)
    (hw : 3 ≤ s.width) (hh : 3 ≤ s.height) (j : Nat)
    (hj : j < s.width * s.height) (hbd : isBorder s.width s.height j) :
    (s.step).velocity_x[j]? = some 0 ∧ (s.step).velocity_y[j]? = some 0 := by
  unfold InteractiveFluid.step
  dsimp only
  have hlen := stepCore_velocity_lengths { s with velocity_x_prev := s.velocity_x, velocity_y_prev := s.velocity_y, dye_r_prev := s.dye_r, dye_g_prev := s.dye_g, dye_b_prev := s.dye_b }
  refine set_boundaries_velocity_border _ ?_ ?_ ?_ ?_ j ?_ ?_
  · show (0:Nat) < s.width
    omega
  · show (0:Nat) < s.height
    omega
  · show _ = s.width * s.height
    exact hlen.1.trans hWF.1
  · show _ = s.width * s.height
    exact hlen.2.trans hWF.2.1
  · show j < s.width * s.height
    exact hj
  · show isBorder s.width s.height j
    exact hbd

/-- Witness for C7 at `new 3 3` and border index `0`. -/
theorem C7_step_border_velocity_zero_witness :
    WF (InteractiveFluid.new 3 3) ∧ 3 ≤ (InteractiveFluid.new 3 3).width ∧
      3 ≤ (InteractiveFluid.new 3 3).height ∧ 0 < 3 * 3 ∧
      isBorder 3 3 0 ∧
      ((InteractiveFluid.new 3 3).step.velocity_x[0]? = some 0 ∧
        (InteractiveFluid.new 3 3).step.velocity_y[0]? = some 0) :=
  ⟨by decide, by decide, by decide, by decide, by decide,
    C7_step_border_velocity_zero (InteractiveFluid.new 3 3)
      (by decide) (by decide) (by decide) 0 (by decide) (by decide)⟩

/-! ### C10: additivity of `add_dye` at a fixed cell -/

theorem set_add_twice (l : List ℚ) (i : Nat) (a b : ℚ) :
    (l.set i (l.getD i 0 + a)).set i
        ((l.set i (l.getD i 0 + a)).getD i 0 + b)
      = l.set i (l.getD i 0 + (a + b)) := by
  by_cases hi : i < l.length
  · rw [List.set_set]
    congr 1
    rw [List.getD_eq_getElem?_getD, List.getElem?_set_self (by simpa using hi)]
    show l.getD i 0 + a + b = l.getD i 0 + (a + b)
    rw [add_assoc]
  · have hle : l.length ≤ i := le_of_not_lt hi
    rw [List.set_eq_of_length_le hle, List.set_eq_of_length_le hle,
      List.set_eq_of_length_le hle]

/-- C10: two sequential `add_dye` calls at the same in-grid cell with colors
`c1` and `c2` produce exactly the same state as one `add_dye` call with the
componentwise sum `c1 + c2`. -/
theorem C10_add_dye_additive (s : InteractiveFluid) (x y : Nat)
    (c1 c2 : ℚ × ℚ × ℚ) (hx : x < s.width) (hy : y < s.height) :
    (s.add_dye x y c1).add_dye x y c2
      = s.add_dye x y (c1.1 + c2.1, c1.2.1 + c2.2.1, c1.2.2 + c2.2.2) := by
  unfold InteractiveFluid.add_dye
  simp only [if_pos (show x < s.width ∧ y < s.height from ⟨hx, hy⟩)]
  rw [set_add_twice, set_add_twice, set_add_twice]

/-- Witness for C10 at `new 3 3`, cell `(1,1)`, colors `(1,2,3)` and
`(4,5,6)`. -/
theorem C10_add_dye_additive_witness :
    1 < (InteractiveFluid.new 3 3).width ∧
      1 < (InteractiveFluid.new 3 3).height ∧
      ((InteractiveFluid.new 3 3).add_dye 1 1 (1, 2, 3)).add_dye 1 1 (4, 5, 6)
        = (InteractiveFluid.new 3 3).add_dye 1 1 (1 + 4, 2 + 5, 3 + 6) :=
  ⟨by decide, by decide,
    C10_add_dye_additive (InteractiveFluid.new 3 3) 1 1 (1, 2, 3) (4, 5, 6)
      (by decide) (by decide)⟩

/-! ### C5: the diffusion coefficients include a grid-size factor -/

/-- The velocity-diffusion coefficient the spec's words prescribe:
`a = dt · viscosity` (no grid-size factor). -/
def specVelocityA (s : InteractiveFluid) : ℚ := s.dt * s.viscosity

/-- The dye-diffusion coefficient the spec's words prescribe:
`a = dt · dye_diffusion` (no grid-size factor). -/
def specDyeA (s : InteractiveFluid) : ℚ := s.dt * s.dye_diffusion

/-- C5 (amended): the code's Jacobi coefficients are the spec's
`dt · viscosity` resp. `dt · dye_diffusion` multiplied by the cell count
`width * height` (lines 142 and 173), so they do depend on the grid
size. -/
theorem C5_amended_diffusion_coefficients (s : InteractiveFluid) :
    diffuseVelocityA s = specVelocityA s * ((s.width * s.height : Nat) : ℚ) ∧
      diffuseDyeA s = specDyeA s * ((s.width * s.height : Nat) : ℚ) :=
  ⟨rfl, rfl⟩

set_option maxRecDepth 8000 in
/-- Counterexample to C5 as stated: on the 3×3 grid the code's coefficients
differ from `dt · viscosity` resp. `dt · dye_diffusion` (they are 9 times
larger), and two grids sharing `dt` and `viscosity` but of different sizes
use different coefficients. -/
theorem C5_coefficient_counterexample :
    diffuseVelocityA (InteractiveFluid.new 3 3)
        ≠ specVelocityA (InteractiveFluid.new 3 3) ∧
      diffuseDyeA (InteractiveFluid.new 3 3)
        ≠ specDyeA (InteractiveFluid.new 3 3) ∧
      (InteractiveFluid.new 3 3).dt = (InteractiveFluid.new 4 4).dt ∧
      (InteractiveFluid.new 3 3).viscosity
        = (InteractiveFluid.new 4 4).viscosity ∧
      diffuseVelocityA (InteractiveFluid.new 3 3)
        ≠ diffuseVelocityA (InteractiveFluid.new 4 4) :=
  of_decide_eq_true (by with_unfolding_all rfl)

/-! ### C8: `new` performs no dimension validation -/

/-- C8 (amended): `new` never fails fast: for every requested size,
including degenerate ones below 3×3, it returns an ordinary grid object
with the requested dimensions and all twelve buffers allocated to
`width * height` zeroes (lines 51-72 contain no assertion or error
path). -/
theorem C8_amended_new_never_fails (width height : Nat) :
    (InteractiveFluid.new width height).width = width ∧
      (InteractiveFluid.new width height).height = height ∧
      WF (InteractiveFluid.new width height) := by
  refine ⟨rfl, rfl, ?_⟩
  unfold WF InteractiveFluid.new
  simp [List.length_replicate]

/-- Counterexample to C8 as stated: `new 2 2` yields a usable, well-formed
grid object (width 2, height 2, all buffers of length 4) instead of
failing. -/
theorem C8_undersized_new_counterexample :
    (InteractiveFluid.new 2 2).width = 2 ∧
      (InteractiveFluid.new 2 2).height = 2 ∧
      WF (InteractiveFluid.new 2 2) ∧
      (InteractiveFluid.new 2 2).velocity_x.length = 4 := by
  decide

/-! ### C3: the advect-dye mass rescale is jointly guarded, not per-channel -/

/-- C3 (amended): the post-advection mass rescale treats the three channels
independently only when all three post totals exceed `1e-10`: under the
joint guard it coincides with the per-channel correction `channelRescale`
used by `diffuse_dye`; the counterexample shows it deviates when one
channel's total is negligible. -/
theorem C3_amended_joint_rescale (rb gb bb : ℚ) (r g b : List ℚ)
    (hr : (1:ℚ)/10^10 < r.sum) (hg : (1:ℚ)/10^10 < g.sum)
    (hb : (1:ℚ)/10^10 < b.sum) :
    dyeMassRescale rb gb bb r g b
      = (channelRescale rb r, channelRescale gb g, channelRescale bb b) := by
  unfold dyeMassRescale channelRescale
  dsimp only
  rw [if_pos ⟨hr, hg, hb⟩, if_pos hr, if_pos hg, if_pos hb]

/-- Witness for the amended C3 at concrete one-cell channels. -/
theorem C3_amended_joint_rescale_witness :
    ((1:ℚ)/10^10 < [(1:ℚ)].sum ∧ (1:ℚ)/10^10 < [(2:ℚ)].sum ∧
        (1:ℚ)/10^10 < [(3:ℚ)].sum) ∧
      dyeMassRescale 5 6 7 [(1:ℚ)] [(2:ℚ)] [(3:ℚ)]
        = (channelRescale 5 [(1:ℚ)], channelRescale 6 [(2:ℚ)],
           channelRescale 7 [(3:ℚ)]) :=
  ⟨⟨of_decide_eq_true (by with_unfolding_all rfl),
    of_decide_eq_true (by with_unfolding_all rfl),
    of_decide_eq_true (by with_unfolding_all rfl)⟩,
   C3_amended_joint_rescale 5 6 7 [(1:ℚ)] [(2:ℚ)] [(3:ℚ)]
     (of_decide_eq_true (by with_unfolding_all rfl))
     (of_decide_eq_true (by with_unfolding_all rfl))
     (of_decide_eq_true (by with_unfolding_all rfl))⟩

/-- Counterexample to C3 as stated: the red channel's post total (9)
exceeds `1e-10`, yet because the green and blue totals are zero the joint
guard of `advect_dye`'s rescale (lines 343-354) fires no correction at all,
so red is not multiplied by its own pre/post ratio as the independent
per-channel correction would do. -/
theorem C3_joint_guard_counterexample :
    (1:ℚ)/10^10 < (List.replicate 9 (1:ℚ)).sum ∧
      dyeMassRescale 1 0 0 (List.replicate 9 (1:ℚ)) (List.replicate 9 0)
          (List.replicate 9 0)
        ≠ (channelRescale 1 (List.replicate 9 (1:ℚ)),
           channelRescale 0 (List.replicate 9 (0:ℚ)),
           channelRescale 0 (List.replicate 9 (0:ℚ))) :=
  of_decide_eq_true (by with_unfolding_all rfl)

/-! ### C6: projection does not always reduce the mean interior divergence -/

/-- A 4×4 state whose velocity field has zero interior divergence but whose
projection introduces divergence (the boundary pass zeroes the border cell
`4` that carried velocity). -/
def incState4 : InteractiveFluid :=
  { InteractiveFluid.new 4 4 with
    velocity_x := (((InteractiveFluid.new 4 4).velocity_x.set 4 1).set 6 1) }

/-- A 4×4 state with small interior velocity on which projection does
strictly reduce the mean absolute interior divergence. -/
def decState4 : InteractiveFluid :=
  { InteractiveFluid.new 4 4 with
    velocity_x := (((InteractiveFluid.new 4 4).velocity_x.set 5 (1/64)).set 6
      (1/64)) }

set_option maxRecDepth 100000 in
/-- C6 (amended): `project_velocity` does not monotonically shrink the mean
absolute interior divergence: on the zero field it leaves it unchanged
(`0`), on `incState4` it strictly increases it (from `0` to `1/32`), and on
`decState4` it strictly decreases it (from `1/1024` to
`394113/536870912`). -/
theorem C6_amended_divergence_not_monotone :
    meanAbsInteriorDivergence ((InteractiveFluid.new 3 3).project_velocity)
        = meanAbsInteriorDivergence (InteractiveFluid.new 3 3) ∧
      meanAbsInteriorDivergence incState4
          < meanAbsInteriorDivergence (incState4.project_velocity) ∧
      meanAbsInteriorDivergence (decState4.project_velocity)
          < meanAbsInteriorDivergence decState4 :=
  ⟨of_decide_eq_true (by with_unfolding_all rfl),
   of_decide_eq_true (by with_unfolding_all rfl),
   of_decide_eq_true (by with_unfolding_all rfl)⟩

set_option maxRecDepth 100000 in
/-- Counterexample to C6 as stated: on the zero velocity field of `new 3 3`
the mean absolute interior divergence is `0` both before and after
`project_velocity`, so it is not strictly smaller afterwards. -/
theorem C6_divergence_counterexample :
    ¬ (meanAbsInteriorDivergence ((InteractiveFluid.new 3 3).project_velocity)
        < meanAbsInteriorDivergence (InteractiveFluid.new 3 3)) :=
  of_decide_eq_true (by with_unfolding_all rfl)

/-! ### C9: guarded additive writes of `add_force` -/

theorem foldl_guard_add_untouched {α : Type} (l : List α) (G : α → Prop)
    [DecidablePred G] (I : α → Nat) (Q : α → ℚ) (b : List ℚ) (j : Nat)
    (hj : ∀ a ∈ l, G a → I a ≠ j) :
    (l.foldl (fun v a => if G a then v.set (I a) (v.getD (I a) 0 + Q a)
        else v) b)[j]? = b[j]? := by
  induction l generalizing b with
  | nil => rfl
  | cons q t ih =>
    rw [List.foldl_cons, ih _ (fun a ha hg => hj a (List.mem_cons_of_mem q ha) hg)]
    by_cases hq : G q
    · rw [if_pos hq, List.getElem?_set_ne (hj q (List.mem_cons_self q t) hq)]
    · rw [if_neg hq]

theorem foldl_guard_add_hit {α : Type} (l : List α) (G : α → Prop)
    [DecidablePred G] (I : α → Nat) (Q : α → ℚ) (b : List ℚ)
    (hpw : l.Pairwise fun a a' => G a → G a' → I a ≠ I a')
    (a : α) (ha : a ∈ l) (hg : G a) :
    (l.foldl (fun v a => if G a then v.set (I a) (v.getD (I a) 0 + Q a)
        else v) b)[I a]?
      = if I a < b.length then some (b.getD (I a) 0 + Q a) else none := by
  induction l generalizing b with
  | nil => simp at ha
  | cons q t ih =>
    rw [List.foldl_cons]
    rcases List.mem_cons.mp ha with rfl | hat
    · rw [if_pos hg]
      rw [foldl_guard_add_untouched t G I Q _ (I a)
        (fun a' ha' hg' hI =>
          (List.pairwise_cons.mp hpw).1 a' ha' hg hg' hI.symm)]
      by_cases hlen : I a < b.length
      · rw [if_pos hlen, List.getElem?_set_self (by simpa [List.length_set])]
      · rw [if_neg hlen, List.set_eq_of_length_le (le_of_not_lt hlen),
          List.getElem?_eq_none (le_of_not_lt hlen)]
    · have hpt := (List.pairwise_cons.mp hpw).2
      by_cases hq : G q
      · rw [if_pos hq, ih _ hpt hat]
        have hne : I q ≠ I a :=
          (List.pairwise_cons.mp hpw).1 a hat hq hg
        rw [List.length_set]
        by_cases hlen : I a < b.length
        · rw [if_pos hlen, if_pos hlen]
          have hgd : (b.set (I q) (b.getD (I q) 0 + Q q)).getD (I a) 0
              = b.getD (I a) 0 := by
            rw [List.getD_eq_getElem?_getD, List.getD_eq_getElem?_getD,
              List.getElem?_set_ne hne, ← List.getD_eq_getElem?_getD]
          rw [hgd]
        · rw [if_neg hlen, if_neg hlen]
      · rw [if_neg hq, ih _ hpt hat]

theorem mem_intRangeIncl {a b z : ℤ} :
    z ∈ intRangeIncl a b ↔ a ≤ z ∧ z ≤ b := by
  simp only [intRangeIncl, List.mem_map, List.mem_range]
  constructor
  · rintro ⟨i, hi, rfl⟩
    omega
  · rintro ⟨h1, h2⟩
    exact ⟨(z - a).toNat, by omega, by omega⟩

theorem nodup_intRangeIncl (a b : ℤ) : (intRangeIncl a b).Nodup := by
  unfold intRangeIncl
  refine List.Nodup.map ?_ (List.nodup_range _)
  intro i j hij
  have h2 : a + (i : ℤ) = a + (j : ℤ) := hij
  omega

theorem mem_forceOffsets {ri : ℤ} {p : ℤ × ℤ} :
    p ∈ forceOffsets ri ↔
      -ri ≤ p.1 ∧ p.1 ≤ ri ∧ -ri ≤ p.2 ∧ p.2 ≤ ri := by
  obtain ⟨dx, dy⟩ := p
  simp only [forceOffsets, List.mem_flatMap, List.mem_map, Prod.mk.injEq]
  constructor
  · rintro ⟨y', hy', x', hx', rfl, rfl⟩
    have h1 := mem_intRangeIncl.mp hy'
    have h2 := mem_intRangeIncl.mp hx'
    exact ⟨h2.1, h2.2, h1.1, h1.2⟩
  · rintro ⟨h1, h2, h3, h4⟩
    exact ⟨dy, mem_intRangeIncl.mpr ⟨h3, h4⟩, dx,
      mem_intRangeIncl.mpr ⟨h1, h2⟩, rfl, rfl⟩

theorem nodup_forceOffsets (ri : ℤ) : (forceOffsets ri).Nodup := by
  have he : forceOffsets ri
      = ((intRangeIncl (-ri) ri) ×ˢ (intRangeIncl (-ri) ri)).map
          (fun q : ℤ × ℤ => (q.2, q.1)) := by
    show forceOffsets ri
      = ((intRangeIncl (-ri) ri).flatMap fun a =>
          (intRangeIncl (-ri) ri).map fun b => (a, b)).map
            (fun q : ℤ × ℤ => (q.2, q.1))
    unfold forceOffsets
    rw [List.map_flatMap]
    simp only [List.map_map]
    rfl
  rw [he]
  refine List.Nodup.map ?_
    (List.Nodup.product (nodup_intRangeIncl _ _) (nodup_intRangeIncl _ _))
  intro q q' h
  obtain ⟨a, b⟩ := q
  obtain ⟨c, d⟩ := q'
  simp only [Prod.mk.injEq] at h
  simp [h.1, h.2]

theorem add_force_idx_inj {w h x y : Nat} {p p' : ℤ × ℤ}
    (hb : 0 ≤ (x:ℤ) + p.1 ∧ (x:ℤ) + p.1 < (w:ℤ) ∧ 0 ≤ (y:ℤ) + p.2 ∧
      (y:ℤ) + p.2 < (h:ℤ))
    (hb' : 0 ≤ (x:ℤ) + p'.1 ∧ (x:ℤ) + p'.1 < (w:ℤ) ∧ 0 ≤ (y:ℤ) + p'.2 ∧
      (y:ℤ) + p'.2 < (h:ℤ))
    (hI : ((y:ℤ) + p.2).toNat * w + ((x:ℤ) + p.1).toNat
        = ((y:ℤ) + p'.2).toNat * w + ((x:ℤ) + p'.1).toNat) : p = p' := by
  have hxw : ((x:ℤ) + p.1).toNat < w := by omega
  have hxw' : ((x:ℤ) + p'.1).toNat < w := by omega
  have e1 := rowcol_mod (y := ((y:ℤ) + p.2).toNat) hxw
  have e2 := rowcol_mod (y := ((y:ℤ) + p'.2).toNat) hxw'
  have e3 := rowcol_div (y := ((y:ℤ) + p.2).toNat) hxw
  have e4 := rowcol_div (y := ((y:ℤ) + p'.2).toNat) hxw'
  rw [hI] at e1 e3
  obtain ⟨a, b⟩ := p
  obtain ⟨c, d⟩ := p'
  simp only at hb hb' hI e1 e2 e3 e4 ⊢
  have h5 : a = c := by omega
  have h6 : b = d := by omega
  rw [h5, h6]

theorem add_force_offsets_pairwise (ri : ℤ) (w h x y : Nat) (rsq : ℚ) :
    (forceOffsets ri).Pairwise (fun p p' : ℤ × ℤ =>
      ((0 ≤ (x:ℤ) + p.1 ∧ (x:ℤ) + p.1 < (w:ℤ) ∧ 0 ≤ (y:ℤ) + p.2 ∧
          (y:ℤ) + p.2 < (h:ℤ)) ∧
        ((p.1 * p.1 + p.2 * p.2 : ℤ) : ℚ) ≤ rsq) →
      ((0 ≤ (x:ℤ) + p'.1 ∧ (x:ℤ) + p'.1 < (w:ℤ) ∧ 0 ≤ (y:ℤ) + p'.2 ∧
          (y:ℤ) + p'.2 < (h:ℤ)) ∧
        ((p'.1 * p'.1 + p'.2 * p'.2 : ℤ) : ℚ) ≤ rsq) →
      ((y:ℤ) + p.2).toNat * w + ((x:ℤ) + p.1).toNat
        ≠ ((y:ℤ) + p'.2).toNat * w + ((x:ℤ) + p'.1).toNat) := by
  refine List.Pairwise.imp ?_ (nodup_forceOffsets ri)
  intro p p' hne hg hg' hI
  exact hne (add_force_idx_inj hg.1 hg'.1 hI)

theorem add_force_velocity_eq (s : InteractiveFluid) (x y : Nat) (f : ℚ × ℚ)
    (radius : ℚ) (hx : x < s.width) (hy : y < s.height) :
    (s.add_force x y f radius).velocity_x
        = (forceOffsets (ratTrunc radius)).foldl
            (fun v p => if ((0 ≤ (x:ℤ) + p.1 ∧ (x:ℤ) + p.1 < (s.width:ℤ) ∧
                  0 ≤ (y:ℤ) + p.2 ∧ (y:ℤ) + p.2 < (s.height:ℤ)) ∧
                  ((p.1 * p.1 + p.2 * p.2 : ℤ) : ℚ) ≤ radius * radius)
              then v.set (((y:ℤ) + p.2).toNat * s.width + ((x:ℤ) + p.1).toNat)
                (v.getD (((y:ℤ) + p.2).toNat * s.width + ((x:ℤ) + p.1).toNat) 0
                  + f.1 * (1 - ((p.1 * p.1 + p.2 * p.2 : ℤ) : ℚ)
                      / (radius * radius)))
              else v) s.velocity_x ∧
      (s.add_force x y f radius).velocity_y
        = (forceOffsets (ratTrunc radius)).foldl
            (fun v p => if ((0 ≤ (x:ℤ) + p.1 ∧ (x:ℤ) + p.1 < (s.width:ℤ) ∧
                  0 ≤ (y:ℤ) + p.2 ∧ (y:ℤ) + p.2 < (s.height:ℤ)) ∧
                  ((p.1 * p.1 + p.2 * p.2 : ℤ) : ℚ) ≤ radius * radius)
              then v.set (((y:ℤ) + p.2).toNat * s.width + ((x:ℤ) + p.1).toNat)
                (v.getD (((y:ℤ) + p.2).toNat * s.width + ((x:ℤ) + p.1).toNat) 0
                  + f.2 * (1 - ((p.1 * p.1 + p.2 * p.2 : ℤ) : ℚ)
                      / (radius * radius)))
              else v) s.velocity_y := by
  unfold InteractiveFluid.add_force
  rw [if_pos ⟨hx, hy⟩]
  dsimp only
  have key : (forceOffsets (ratTrunc radius)).foldl
      (fun (v : List ℚ × List ℚ) p =>
        if 0 ≤ (x:ℤ) + p.1 ∧ (x:ℤ) + p.1 < (s.width:ℤ) ∧
            0 ≤ (y:ℤ) + p.2 ∧ (y:ℤ) + p.2 < (s.height:ℤ) then
          if ((p.1 * p.1 + p.2 * p.2 : ℤ) : ℚ) ≤ radius * radius then
            (v.1.set (((y:ℤ) + p.2).toNat * s.width + ((x:ℤ) + p.1).toNat)
              (v.1.getD (((y:ℤ) + p.2).toNat * s.width + ((x:ℤ) + p.1).toNat) 0
                + f.1 * (1 - ((p.1 * p.1 + p.2 * p.2 : ℤ) : ℚ)
                    / (radius * radius))),
             v.2.set (((y:ℤ) + p.2).toNat * s.width + ((x:ℤ) + p.1).toNat)
              (v.2.getD (((y:ℤ) + p.2).toNat * s.width + ((x:ℤ) + p.1).toNat) 0
                + f.2 * (1 - ((p.1 * p.1 + p.2 * p.2 : ℤ) : ℚ)
                    / (radius * radius))))
          else v
        else v) (s.velocity_x, s.velocity_y)
      = ((forceOffsets (ratTrunc radius)).foldl
          (fun v p => if ((0 ≤ (x:ℤ) + p.1 ∧ (x:ℤ) + p.1 < (s.width:ℤ) ∧
                0 ≤ (y:ℤ) + p.2 ∧ (y:ℤ) + p.2 < (s.height:ℤ)) ∧
                ((p.1 * p.1 + p.2 * p.2 : ℤ) : ℚ) ≤ radius * radius)
            then v.set (((y:ℤ) + p.2).toNat * s.width + ((x:ℤ) + p.1).toNat)
              (v.getD (((y:ℤ) + p.2).toNat * s.width + ((x:ℤ) + p.1).toNat) 0
                + f.1 * (1 - ((p.1 * p.1 + p.2 * p.2 : ℤ) : ℚ)
                    / (radius * radius)))
            else v) s.velocity_x,
         (forceOffsets (ratTrunc radius)).foldl
          (fun v p => if ((0 ≤ (x:ℤ) + p.1 ∧ (x:ℤ) + p.1 < (s.width:ℤ) ∧
                0 ≤ (y:ℤ) + p.2 ∧ (y:ℤ) + p.2 < (s.height:ℤ)) ∧
                ((p.1 * p.1 + p.2 * p.2 : ℤ) : ℚ) ≤ radius * radius)
            then v.set (((y:ℤ) + p.2).toNat * s.width + ((x:ℤ) + p.1).toNat)
              (v.getD (((y:ℤ) + p.2).toNat * s.width + ((x:ℤ) + p.1).toNat) 0
                + f.2 * (1 - ((p.1 * p.1 + p.2 * p.2 : ℤ) : ℚ)
                    / (radius * radius)))
            else v) s.velocity_y) := by
    rw [List.foldl_ext _
      (fun (v : List ℚ × List ℚ) p =>
        (if ((0 ≤ (x:ℤ) + p.1 ∧ (x:ℤ) + p.1 < (s.width:ℤ) ∧
              0 ≤ (y:ℤ) + p.2 ∧ (y:ℤ) + p.2 < (s.height:ℤ)) ∧
              ((p.1 * p.1 + p.2 * p.2 : ℤ) : ℚ) ≤ radius * radius)
          then v.1.set (((y:ℤ) + p.2).toNat * s.width + ((x:ℤ) + p.1).toNat)
            (v.1.getD (((y:ℤ) + p.2).toNat * s.width + ((x:ℤ) + p.1).toNat) 0
              + f.1 * (1 - ((p.1 * p.1 + p.2 * p.2 : ℤ) : ℚ)
                  / (radius * radius)))
          else v.1,
         if ((0 ≤ (x:ℤ) + p.1 ∧ (x:ℤ) + p.1 < (s.width:ℤ) ∧
              0 ≤ (y:ℤ) + p.2 ∧ (y:ℤ) + p.2 < (s.height:ℤ)) ∧
              ((p.1 * p.1 + p.2 * p.2 : ℤ) : ℚ) ≤ radius * radius)
          then v.2.set (((y:ℤ) + p.2).toNat * s.width + ((x:ℤ) + p.1).toNat)
            (v.2.getD (((y:ℤ) + p.2).toNat * s.width + ((x:ℤ) + p.1).toNat) 0
              + f.2 * (1 - ((p.1 * p.1 + p.2 * p.2 : ℤ) : ℚ)
                  / (radius * radius)))
          else v.2))
      (s.velocity_x, s.velocity_y) ?_]
    · exact foldl_pair_split (forceOffsets (ratTrunc radius))
        (fun b p => if ((0 ≤ (x:ℤ) + p.1 ∧ (x:ℤ) + p.1 < (s.width:ℤ) ∧
              0 ≤ (y:ℤ) + p.2 ∧ (y:ℤ) + p.2 < (s.height:ℤ)) ∧
              ((p.1 * p.1 + p.2 * p.2 : ℤ) : ℚ) ≤ radius * radius)
          then b.set (((y:ℤ) + p.2).toNat * s.width + ((x:ℤ) + p.1).toNat)
            (b.getD (((y:ℤ) + p.2).toNat * s.width + ((x:ℤ) + p.1).toNat) 0
              + f.1 * (1 - ((p.1 * p.1 + p.2 * p.2 : ℤ) : ℚ)
                  / (radius * radius)))
          else b)
        (fun b p => if ((0 ≤ (x:ℤ) + p.1 ∧ (x:ℤ) + p.1 < (s.width:ℤ) ∧
              0 ≤ (y:ℤ) + p.2 ∧ (y:ℤ) + p.2 < (s.height:ℤ)) ∧
              ((p.1 * p.1 + p.2 * p.2 : ℤ) : ℚ) ≤ radius * radius)
          then b.set (((y:ℤ) + p.2).toNat * s.width + ((x:ℤ) + p.1).toNat)
            (b.getD (((y:ℤ) + p.2).toNat * s.width + ((x:ℤ) + p.1).toNat) 0
              + f.2 * (1 - ((p.1 * p.1 + p.2 * p.2 : ℤ) : ℚ)
                  / (radius * radius)))
          else b)
        s.velocity_x s.velocity_y
    · intro v p hp
      obtain ⟨b1, b2⟩ := v
      dsimp only
      by_cases hA : 0 ≤ (x:ℤ) + p.1 ∧ (x:ℤ) + p.1 < (s.width:ℤ) ∧
          0 ≤ (y:ℤ) + p.2 ∧ (y:ℤ) + p.2 < (s.height:ℤ)
      · by_cases hB : ((p.1 * p.1 + p.2 * p.2 : ℤ) : ℚ) ≤ radius * radius
        · rw [if_pos hA, if_pos hB, if_pos ⟨hA, hB⟩, if_pos ⟨hA, hB⟩]
        · rw [if_pos hA, if_neg hB,
            if_neg (fun hc => hB hc.2), if_neg (fun hc => hB hc.2)]
      · rw [if_neg hA,
          if_neg (fun hc => hA hc.1), if_neg (fun hc => hA hc.1)]
  exact ⟨congrArg Prod.fst key, congrArg Prod.snd key⟩

/-- C9 (amended): `add_force` requires the center cell to be inside the
grid (the `as usize` bounds test at line 84 silently drops the whole call
otherwise): under that precondition, with a positive radius, every grid
cell within squared distance `radius²` of the center has
`force * (1 - dist²/radius²)` added to both velocity components, every
grid cell strictly beyond `radius²` keeps its velocity, and the dye,
pressure and divergence buffers are untouched. -/
theorem C9_amended_add_force (s : InteractiveFluid) (x y : Nat) (f : ℚ × ℚ)
    (radius : ℚ) (hx : x < s.width) (hy : y < s.height) (hr : 0 < radius)
    (hlx : s.velocity_x.length = s.width * s.height)
    (hly : s.velocity_y.length = s.width * s.height)
    (cx cy : Nat) (hcx : cx < s.width) (hcy : cy < s.height) :
    ((s.add_force x y f radius).dye_r = s.dye_r ∧
      (s.add_force x y f radius).dye_g = s.dye_g ∧
      (s.add_force x y f radius).dye_b = s.dye_b ∧
      (s.add_force x y f radius).pressure = s.pressure ∧
      (s.add_force x y f radius).divergence = s.divergence) ∧
    (((cx:ℚ) - (x:ℚ))^2 + ((cy:ℚ) - (y:ℚ))^2 ≤ radius * radius →
      (s.add_force x y f radius).velocity_x[cy * s.width + cx]?
          = some (s.velocity_x.getD (cy * s.width + cx) 0
              + f.1 * (1 - (((cx:ℚ) - (x:ℚ))^2 + ((cy:ℚ) - (y:ℚ))^2)
                  / (radius * radius))) ∧
        (s.add_force x y f radius).velocity_y[cy * s.width + cx]?
          = some (s.velocity_y.getD (cy * s.width + cx) 0
              + f.2 * (1 - (((cx:ℚ) - (x:ℚ))^2 + ((cy:ℚ) - (y:ℚ))^2)
                  / (radius * radius)))) ∧
    (radius * radius < ((cx:ℚ) - (x:ℚ))^2 + ((cy:ℚ) - (y:ℚ))^2 →
      (s.add_force x y f radius).velocity_x[cy * s.width + cx]?
          = s.velocity_x[cy * s.width + cx]? ∧
        (s.add_force x y f radius).velocity_y[cy * s.width + cx]?
          = s.velocity_y[cy * s.width + cx]?) := by
  have hvel := add_force_velocity_eq s x y f radius hx hy
  have hframe : (s.add_force x y f radius).dye_r = s.dye_r ∧
      (s.add_force x y f radius).dye_g = s.dye_g ∧
      (s.add_force x y f radius).dye_b = s.dye_b ∧
      (s.add_force x y f radius).pressure = s.pressure ∧
      (s.add_force x y f radius).divergence = s.divergence := by
    unfold InteractiveFluid.add_force
    rw [if_pos ⟨hx, hy⟩]
    exact ⟨rfl, rfl, rfl, rfl, rfl⟩
  have hrt : ratTrunc radius = ⌊radius⌋ := by
    unfold ratTrunc
    rw [if_pos hr.le]
  have hidxlt : cy * s.width + cx < s.width * s.height := by
    calc cy * s.width + cx < cy * s.width + s.width := by omega
      _ = (cy + 1) * s.width := by ring
      _ ≤ s.height * s.width := Nat.mul_le_mul_right _ (by omega)
      _ = s.width * s.height := Nat.mul_comm _ _
  refine ⟨hframe, ?_, ?_⟩
  · intro hd
    have hqxu : (cx:ℚ) - (x:ℚ) ≤ radius := by
      nlinarith [sq_nonneg ((cy:ℚ) - (y:ℚ)),
        sq_nonneg ((cx:ℚ) - (x:ℚ) - radius)]
    have hqxl : -radius ≤ (cx:ℚ) - (x:ℚ) := by
      nlinarith [sq_nonneg ((cy:ℚ) - (y:ℚ)),
        sq_nonneg ((cx:ℚ) - (x:ℚ) + radius)]
    have hqyu : (cy:ℚ) - (y:ℚ) ≤ radius := by
      nlinarith [sq_nonneg ((cx:ℚ) - (x:ℚ)),
        sq_nonneg ((cy:ℚ) - (y:ℚ) - radius)]
    have hqyl : -radius ≤ (cy:ℚ) - (y:ℚ) := by
      nlinarith [sq_nonneg ((cx:ℚ) - (x:ℚ)),
        sq_nonneg ((cy:ℚ) - (y:ℚ) + radius)]
    have hzxu : (cx:ℤ) - (x:ℤ) ≤ ⌊radius⌋ := by
      rw [Int.le_floor]
      push_cast
      exact hqxu
    have hzxl : -⌊radius⌋ ≤ (cx:ℤ) - (x:ℤ) := by
      have h2 : -((cx:ℤ) - (x:ℤ)) ≤ ⌊radius⌋ := by
        rw [Int.le_floor]
        push_cast
        linarith
      omega
    have hzyu : (cy:ℤ) - (y:ℤ) ≤ ⌊radius⌋ := by
      rw [Int.le_floor]
      push_cast
      exact hqyu
    have hzyl : -⌊radius⌋ ≤ (cy:ℤ) - (y:ℤ) := by
      have h2 : -((cy:ℤ) - (y:ℤ)) ≤ ⌊radius⌋ := by
        rw [Int.le_floor]
        push_cast
        linarith
      omega
    have hmem : (((cx:ℤ) - (x:ℤ), (cy:ℤ) - (y:ℤ)) : ℤ × ℤ)
        ∈ forceOffsets (ratTrunc radius) := by
      rw [hrt, mem_forceOffsets]
      exact ⟨hzxl, hzxu, hzyl, hzyu⟩
    have hD : ((((cx:ℤ) - (x:ℤ)) * ((cx:ℤ) - (x:ℤ))
          + ((cy:ℤ) - (y:ℤ)) * ((cy:ℤ) - (y:ℤ)) : ℤ) : ℚ)
        = ((cx:ℚ) - (x:ℚ))^2 + ((cy:ℚ) - (y:ℚ))^2 := by
      push_cast
      ring
    have hG : (0 ≤ (x:ℤ) + ((cx:ℤ) - (x:ℤ)) ∧
        (x:ℤ) + ((cx:ℤ) - (x:ℤ)) < (s.width:ℤ) ∧
        0 ≤ (y:ℤ) + ((cy:ℤ) - (y:ℤ)) ∧
        (y:ℤ) + ((cy:ℤ) - (y:ℤ)) < (s.height:ℤ)) ∧
        ((((cx:ℤ) - (x:ℤ)) * ((cx:ℤ) - (x:ℤ))
          + ((cy:ℤ) - (y:ℤ)) * ((cy:ℤ) - (y:ℤ)) : ℤ) : ℚ) ≤ radius * radius := by
      refine ⟨⟨by omega, by omega, by omega, by omega⟩, ?_⟩
      rw [hD]
      exact hd
    have t1 : ((x:ℤ) + ((cx:ℤ) - (x:ℤ))).toNat = cx := by omega
    have t2 : ((y:ℤ) + ((cy:ℤ) - (y:ℤ))).toNat = cy := by omega
    constructor
    · rw [hvel.1]
      have hit := foldl_guard_add_hit (forceOffsets (ratTrunc radius))
        (fun p : ℤ × ℤ => (0 ≤ (x:ℤ) + p.1 ∧ (x:ℤ) + p.1 < (s.width:ℤ) ∧
            0 ≤ (y:ℤ) + p.2 ∧ (y:ℤ) + p.2 < (s.height:ℤ)) ∧
          ((p.1 * p.1 + p.2 * p.2 : ℤ) : ℚ) ≤ radius * radius)
        (fun p : ℤ × ℤ =>
          ((y:ℤ) + p.2).toNat * s.width + ((x:ℤ) + p.1).toNat)
        (fun p : ℤ × ℤ => f.1 * (1 - ((p.1 * p.1 + p.2 * p.2 : ℤ) : ℚ)
            / (radius * radius)))
        s.velocity_x
        (add_force_offsets_pairwise (ratTrunc radius) s.width s.height x y
          (radius * radius))
        (((cx:ℤ) - (x:ℤ), (cy:ℤ) - (y:ℤ)) : ℤ × ℤ) hmem hG
      dsimp only at hit
      rw [t1, t2, hD] at hit
      rw [hit, if_pos (by rw [hlx]; exact hidxlt)]
    · rw [hvel.2]
      have hit := foldl_guard_add_hit (forceOffsets (ratTrunc radius))
        (fun p : ℤ × ℤ => (0 ≤ (x:ℤ) + p.1 ∧ (x:ℤ) + p.1 < (s.width:ℤ) ∧
            0 ≤ (y:ℤ) + p.2 ∧ (y:ℤ) + p.2 < (s.height:ℤ)) ∧
          ((p.1 * p.1 + p.2 * p.2 : ℤ) : ℚ) ≤ radius * radius)
        (fun p : ℤ × ℤ =>
          ((y:ℤ) + p.2).toNat * s.width + ((x:ℤ) + p.1).toNat)
        (fun p : ℤ × ℤ => f.2 * (1 - ((p.1 * p.1 + p.2 * p.2 : ℤ) : ℚ)
            / (radius * radius)))
        s.velocity_y
        (add_force_offsets_pairwise (ratTrunc radius) s.width s.height x y
          (radius * radius))
        (((cx:ℤ) - (x:ℤ), (cy:ℤ) - (y:ℤ)) : ℤ × ℤ) hmem hG
      dsimp only at hit
      rw [t1, t2, hD] at hit
      rw [hit, if_pos (by rw [hly]; exact hidxlt)]
  · intro hgt
    have hj : ∀ p ∈ forceOffsets (ratTrunc radius),
        ((0 ≤ (x:ℤ) + p.1 ∧ (x:ℤ) + p.1 < (s.width:ℤ) ∧
            0 ≤ (y:ℤ) + p.2 ∧ (y:ℤ) + p.2 < (s.height:ℤ)) ∧
          ((p.1 * p.1 + p.2 * p.2 : ℤ) : ℚ) ≤ radius * radius) →
        ((y:ℤ) + p.2).toNat * s.width + ((x:ℤ) + p.1).toNat
          ≠ cy * s.width + cx := by
      rintro ⟨pa, pb⟩ hp ⟨hbnd, hdist⟩ heq
      simp only at hbnd hdist heq
      have hxw : ((x:ℤ) + pa).toNat < s.width := by omega
      have e1 := rowcol_mod (y := ((y:ℤ) + pb).toNat) hxw
      have e2 := rowcol_mod (y := cy) hcx
      have e3 := rowcol_div (y := ((y:ℤ) + pb).toNat) hxw
      have e4 := rowcol_div (y := cy) hcx
      rw [heq] at e1 e3
      have hpa : pa = (cx:ℤ) - (x:ℤ) := by omega
      have hpb : pb = (cy:ℤ) - (y:ℤ) := by omega
      rw [hpa, hpb] at hdist
      have hps : ((((cx:ℤ) - (x:ℤ)) * ((cx:ℤ) - (x:ℤ))
            + ((cy:ℤ) - (y:ℤ)) * ((cy:ℤ) - (y:ℤ)) : ℤ) : ℚ)
          = ((cx:ℚ) - (x:ℚ))^2 + ((cy:ℚ) - (y:ℚ))^2 := by
        push_cast
        ring
      rw [hps] at hdist
      linarith
    constructor
    · rw [hvel.1]
      exact foldl_guard_add_untouched (forceOffsets (ratTrunc radius))
        (fun p : ℤ × ℤ => (0 ≤ (x:ℤ) + p.1 ∧ (x:ℤ) + p.1 < (s.width:ℤ) ∧
            0 ≤ (y:ℤ) + p.2 ∧ (y:ℤ) + p.2 < (s.height:ℤ)) ∧
          ((p.1 * p.1 + p.2 * p.2 : ℤ) : ℚ) ≤ radius * radius)
        (fun p : ℤ × ℤ =>
          ((y:ℤ) + p.2).toNat * s.width + ((x:ℤ) + p.1).toNat)
        (fun p : ℤ × ℤ => f.1 * (1 - ((p.1 * p.1 + p.2 * p.2 : ℤ) : ℚ)
            / (radius * radius)))
        s.velocity_x (cy * s.width + cx) hj
    · rw [hvel.2]
      exact foldl_guard_add_untouched (forceOffsets (ratTrunc radius))
        (fun p : ℤ × ℤ => (0 ≤ (x:ℤ) + p.1 ∧ (x:ℤ) + p.1 < (s.width:ℤ) ∧
            0 ≤ (y:ℤ) + p.2 ∧ (y:ℤ) + p.2 < (s.height:ℤ)) ∧
          ((p.1 * p.1 + p.2 * p.2 : ℤ) : ℚ) ≤ radius * radius)
        (fun p : ℤ × ℤ =>
          ((y:ℤ) + p.2).toNat * s.width + ((x:ℤ) + p.1).toNat)
        (fun p : ℤ × ℤ => f.2 * (1 - ((p.1 * p.1 + p.2 * p.2 : ℤ) : ℚ)
            / (radius * radius)))
        s.velocity_y (cy * s.width + cx) hj

/-- Witness for the amended C9: center `(1,1)` with radius `1` and force
`(2,3)` on `new 3 3`, sampled at the center cell itself. -/
theorem C9_amended_add_force_witness :
    ((0:ℚ) < 1 ∧ (1:Nat) < (InteractiveFluid.new 3 3).width ∧
      (InteractiveFluid.new 3 3).velocity_x.length
        = (InteractiveFluid.new 3 3).width * (InteractiveFluid.new 3 3).height) ∧
      ((((1:Nat):ℚ) - ((1:Nat):ℚ))^2 + (((1:Nat):ℚ) - ((1:Nat):ℚ))^2
          ≤ 1 * 1) ∧
      ((InteractiveFluid.new 3 3).add_force 1 1 (2, 3)
            1).velocity_x[1 * (InteractiveFluid.new 3 3).width + 1]?
        = some ((InteractiveFluid.new 3 3).velocity_x.getD
              (1 * (InteractiveFluid.new 3 3).width + 1) 0
            + 2 * (1 - ((((1:Nat):ℚ) - ((1:Nat):ℚ))^2
                + (((1:Nat):ℚ) - ((1:Nat):ℚ))^2) / (1 * 1))) :=
  ⟨⟨zero_lt_one, by decide, by decide⟩,
   of_decide_eq_true (by with_unfolding_all rfl),
   ((C9_amended_add_force (InteractiveFluid.new 3 3) 1 1 (2, 3) 1
      (by decide) (by decide) zero_lt_one (by decide) (by decide) 1 1
      (by decide) (by decide)).2.1
    (of_decide_eq_true (by with_unfolding_all rfl))).1⟩

set_option maxRecDepth 100000 in
/-- Counterexample to C9 as stated: the call
`add_force (new 3 3) 3 1 (1,0) 2` has its center outside the grid, so the
whole call is a no-op, although cell `(2,1)` is inside the grid, within
squared distance `1 ≤ 4` of the center, and the update the claim demands
there (`1 * (1 - 1/4) = 3/4`) is nonzero. -/
theorem C9_oob_center_counterexample :
    (0:ℚ) < 2 ∧ (2:Nat) < (InteractiveFluid.new 3 3).width ∧
      (1:Nat) < (InteractiveFluid.new 3 3).height ∧
      (((2:Nat):ℚ) - ((3:Nat):ℚ))^2 + (((1:Nat):ℚ) - ((1:Nat):ℚ))^2
        ≤ 2 * 2 ∧
      (InteractiveFluid.new 3 3).add_force 3 1 (1, 0) 2
        = InteractiveFluid.new 3 3 ∧
      (1:ℚ) * (1 - ((((2:Nat):ℚ) - ((3:Nat):ℚ))^2
          + (((1:Nat):ℚ) - ((1:Nat):ℚ))^2) / (2 * 2)) ≠ 0 := by
  refine ⟨of_decide_eq_true (by with_unfolding_all rfl), by decide, by decide,
    of_decide_eq_true (by with_unfolding_all rfl), ?_,
    of_decide_eq_true (by with_unfolding_all rfl)⟩
  unfold InteractiveFluid.add_force
  rw [if_neg (fun hc => absurd hc.1 (by decide))]

/-! ### C4: velocity advection and projection ignore the prepared velocity -/

theorem velBnd_eq_of_interior_agree {w h : Nat} (hw : 3 ≤ w) (hh : 3 ≤ h)
    (b q : List ℚ) (hb : b.length = w * h) (hq : q.length = w * h)
    (hagree : ∀ j, isInterior w h j → b[j]? = q[j]?) :
    (List.range h).foldl (fun v y => (v.set (y*w) 0).set (y*w + (w-1)) 0)
      ((List.range w).foldl (fun v x => (v.set x 0).set ((h-1)*w + x) 0) b)
    = (List.range h).foldl (fun v y => (v.set (y*w) 0).set (y*w + (w-1)) 0)
      ((List.range w).foldl (fun v x => (v.set x 0).set ((h-1)*w + x) 0) q) := by
  apply List.ext_getElem?
  intro j
  by_cases hj : j < w * h
  · rw [velBnd1_getElem? (by omega) (by omega) b hb j hj,
      velBnd1_getElem? (by omega) (by omega) q hq j hj]
    by_cases hbd : isBorder w h j
    · rw [if_pos hbd, if_pos hbd]
    · rw [if_neg hbd, if_neg hbd]
      refine hagree j ?_
      by_contra hni
      exact hbd ((not_isInterior_iff_isBorder hw hh hj).mp hni)
  · rw [List.getElem?_eq_none (by rw [length_colZero, length_rowZero, hb]; omega),
      List.getElem?_eq_none (by rw [length_colZero, length_rowZero, hq]; omega)]

theorem advect_pair_eq {w h : Nat} (dt : ℚ) (vxp vyp : List ℚ)
    (hw : 3 ≤ w) (hh : 3 ≤ h) (vx vy vx' vy' : List ℚ)
    (h1 : vx.length = w*h) (h2 : vy.length = w*h)
    (h1' : vx'.length = w*h) (h2' : vy'.length = w*h) :
    (fun t : List ℚ × List ℚ => setVelBndPair w h t.1 t.2)
      ((interiorCoords w h).foldl
        (fun (v : List ℚ × List ℚ) p =>
          (v.1.set (cellIdx w p)
            (bilinearSample w h dt (vxp.getD (cellIdx w p) 0)
              (vyp.getD (cellIdx w p) 0) p.1 p.2 vxp),
           v.2.set (cellIdx w p)
            (bilinearSample w h dt (vxp.getD (cellIdx w p) 0)
              (vyp.getD (cellIdx w p) 0) p.1 p.2 vyp))) (vx, vy)) =
    (fun t : List ℚ × List ℚ => setVelBndPair w h t.1 t.2)
      ((interiorCoords w h).foldl
        (fun (v : List ℚ × List ℚ) p =>
          (v.1.set (cellIdx w p)
            (bilinearSample w h dt (vxp.getD (cellIdx w p) 0)
              (vyp.getD (cellIdx w p) 0) p.1 p.2 vxp),
           v.2.set (cellIdx w p)
            (bilinearSample w h dt (vxp.getD (cellIdx w p) 0)
              (vyp.getD (cellIdx w p) 0) p.1 p.2 vyp))) (vx', vy')) := by
  rw [foldl_pair_split (interiorCoords w h)
    (fun a p => a.set (cellIdx w p)
      (bilinearSample w h dt (vxp.getD (cellIdx w p) 0)
        (vyp.getD (cellIdx w p) 0) p.1 p.2 vxp))
    (fun a p => a.set (cellIdx w p)
      (bilinearSample w h dt (vxp.getD (cellIdx w p) 0)
        (vyp.getD (cellIdx w p) 0) p.1 p.2 vyp))
    vx vy,
    foldl_pair_split (interiorCoords w h)
    (fun a p => a.set (cellIdx w p)
      (bilinearSample w h dt (vxp.getD (cellIdx w p) 0)
        (vyp.getD (cellIdx w p) 0) p.1 p.2 vxp))
    (fun a p => a.set (cellIdx w p)
      (bilinearSample w h dt (vxp.getD (cellIdx w p) 0)
        (vyp.getD (cellIdx w p) 0) p.1 p.2 vyp))
    vx' vy']
  dsimp only
  rw [setVelBndPair_eq, setVelBndPair_eq]
  have e1 := velBnd_eq_of_interior_agree hw hh
    ((interiorCoords w h).foldl
      (fun a p => a.set (cellIdx w p)
        (bilinearSample w h dt (vxp.getD (cellIdx w p) 0)
          (vyp.getD (cellIdx w p) 0) p.1 p.2 vxp)) vx)
    ((interiorCoords w h).foldl
      (fun a p => a.set (cellIdx w p)
        (bilinearSample w h dt (vxp.getD (cellIdx w p) 0)
          (vyp.getD (cellIdx w p) 0) p.1 p.2 vxp)) vx')
    (by rw [length_interior_pass]; exact h1)
    (by rw [length_interior_pass]; exact h1')
    (interior_pass_agree _ (advectSampleF w h dt vxp vyp vxp)
      (advectSample_GF dt vxp vyp vxp) vx vx' h1 h1')
  have e2 := velBnd_eq_of_interior_agree hw hh
    ((interiorCoords w h).foldl
      (fun a p => a.set (cellIdx w p)
        (bilinearSample w h dt (vxp.getD (cellIdx w p) 0)
          (vyp.getD (cellIdx w p) 0) p.1 p.2 vyp)) vy)
    ((interiorCoords w h).foldl
      (fun a p => a.set (cellIdx w p)
        (bilinearSample w h dt (vxp.getD (cellIdx w p) 0)
          (vyp.getD (cellIdx w p) 0) p.1 p.2 vyp)) vy')
    (by rw [length_interior_pass]; exact h2)
    (by rw [length_interior_pass]; exact h2')
    (interior_pass_agree _ (advectSampleF w h dt vxp vyp vyp)
      (advectSample_GF dt vxp vyp vyp) vy vy' h2 h2')
  rw [e1, e2]

theorem advect_velocity_eq_of_velocity (u : InteractiveFluid)
    (vx' vy' pp dd : List ℚ) (hw : 3 ≤ u.width) (hh : 3 ≤ u.height)
    (h1 : u.velocity_x.length = u.width * u.height)
    (h2 : u.velocity_y.length = u.width * u.height)
    (h1' : vx'.length = u.width * u.height)
    (h2' : vy'.length = u.width * u.height) :
    ({u with velocity_x := vx', velocity_y := vy', pressure := pp, divergence := dd} : InteractiveFluid).advect_velocity
      = { u.advect_velocity with pressure := pp, divergence := dd } := by
  have key := advect_pair_eq u.dt u.velocity_x_prev u.velocity_y_prev hw hh
    vx' vy' u.velocity_x u.velocity_y h1' h2' h1 h2
  dsimp only at key
  unfold InteractiveFluid.advect_velocity
  dsimp only
  rw [key]

theorem project_velocity_eq_core (u : InteractiveFluid) (pp dd : List ℚ)
    (hw : 3 ≤ u.width) (hh : 3 ≤ u.height)
    (hpr : u.pressure.length = u.width * u.height)
    (hpp : pp.length = u.width * u.height)
    (hdv : u.divergence.length = u.width * u.height)
    (hdd : dd.length = u.width * u.height)
    (hagree : ∀ j, ¬ isInterior u.width u.height j →
      dd[j]? = u.divergence[j]?) :
    ({u with pressure := pp, divergence := dd} :
        InteractiveFluid).project_velocity
      = u.project_velocity := by
  unfold InteractiveFluid.project_velocity
  dsimp only
  rw [foldl_pair_split (interiorCoords u.width u.height)
    (fun a q => a.set (cellIdx u.width q) (-(1/2) * (1 / (u.width:ℚ))
      * (u.velocity_x.getD (cellIdx u.width q + 1) 0
        - u.velocity_x.getD (cellIdx u.width q - 1) 0
        + u.velocity_y.getD (cellIdx u.width q + u.width) 0
        - u.velocity_y.getD (cellIdx u.width q - u.width) 0)))
    (fun a q => a.set (cellIdx u.width q) 0) dd pp,
    foldl_pair_split (interiorCoords u.width u.height)
    (fun a q => a.set (cellIdx u.width q) (-(1/2) * (1 / (u.width:ℚ))
      * (u.velocity_x.getD (cellIdx u.width q + 1) 0
        - u.velocity_x.getD (cellIdx u.width q - 1) 0
        + u.velocity_y.getD (cellIdx u.width q + u.width) 0
        - u.velocity_y.getD (cellIdx u.width q - u.width) 0)))
    (fun a q => a.set (cellIdx u.width q) 0) u.divergence u.pressure]
  dsimp only
  have hDeq : (interiorCoords u.width u.height).foldl
      (fun a q => a.set (cellIdx u.width q) (-(1/2) * (1 / (u.width:ℚ))
        * (u.velocity_x.getD (cellIdx u.width q + 1) 0
          - u.velocity_x.getD (cellIdx u.width q - 1) 0
          + u.velocity_y.getD (cellIdx u.width q + u.width) 0
          - u.velocity_y.getD (cellIdx u.width q - u.width) 0))) dd
      = (interiorCoords u.width u.height).foldl
      (fun a q => a.set (cellIdx u.width q) (-(1/2) * (1 / (u.width:ℚ))
        * (u.velocity_x.getD (cellIdx u.width q + 1) 0
          - u.velocity_x.getD (cellIdx u.width q - 1) 0
          + u.velocity_y.getD (cellIdx u.width q + u.width) 0
          - u.velocity_y.getD (cellIdx u.width q - u.width) 0)))
        u.divergence := by
    apply List.ext_getElem?
    intro j
    rw [interior_pass_getElem?
      (fun q => -(1/2) * (1 / (u.width:ℚ))
        * (u.velocity_x.getD (cellIdx u.width q + 1) 0
          - u.velocity_x.getD (cellIdx u.width q - 1) 0
          + u.velocity_y.getD (cellIdx u.width q + u.width) 0
          - u.velocity_y.getD (cellIdx u.width q - u.width) 0))
      (fun j => -(1/2) * (1 / (u.width:ℚ))
        * (u.velocity_x.getD (j + 1) 0 - u.velocity_x.getD (j - 1) 0
          + u.velocity_y.getD (j + u.width) 0
          - u.velocity_y.getD (j - u.width) 0))
      (fun p hp => rfl) dd j,
      interior_pass_getElem?
      (fun q => -(1/2) * (1 / (u.width:ℚ))
        * (u.velocity_x.getD (cellIdx u.width q + 1) 0
          - u.velocity_x.getD (cellIdx u.width q - 1) 0
          + u.velocity_y.getD (cellIdx u.width q + u.width) 0
          - u.velocity_y.getD (cellIdx u.width q - u.width) 0))
      (fun j => -(1/2) * (1 / (u.width:ℚ))
        * (u.velocity_x.getD (j + 1) 0 - u.velocity_x.getD (j - 1) 0
          + u.velocity_y.getD (j + u.width) 0
          - u.velocity_y.getD (j - u.width) 0))
      (fun p hp => rfl) u.divergence j]
    by_cases hint : isInterior u.width u.height j
    · have hlt := isInterior_lt hint
      rw [if_pos ⟨hint, by rw [hdd]; exact hlt⟩,
        if_pos ⟨hint, by rw [hdv]; exact hlt⟩]
    · rw [if_neg (fun hc => hint hc.1), if_neg (fun hc => hint hc.1)]
      exact hagree j hint
  have hPeq : copyCols u.width u.height (copyRows u.width u.height
        ((interiorCoords u.width u.height).foldl
          (fun a q => a.set (cellIdx u.width q) 0) pp))
      = copyCols u.width u.height (copyRows u.width u.height
        ((interiorCoords u.width u.height).foldl
          (fun a q => a.set (cellIdx u.width q) 0) u.pressure)) := by
    apply copyColsRows_eq_of_interior_agree hw hh _ _
      (by rw [length_interior_pass]; exact hpp)
      (by rw [length_interior_pass]; exact hpr)
    intro j hj
    rw [interior_pass_getElem? (fun _ => 0) (fun _ => 0) (fun _ _ => rfl) pp j,
      interior_pass_getElem? (fun _ => 0) (fun _ => 0) (fun _ _ => rfl)
        u.pressure j]
    have hlt := isInterior_lt hj
    rw [if_pos ⟨hj, by rw [hpp]; exact hlt⟩,
      if_pos ⟨hj, by rw [hpr]; exact hlt⟩]
  rw [hDeq, hPeq]

theorem project_velocity_divergence_off (u : InteractiveFluid) (j : Nat)
    (hj : ¬ isInterior u.width u.height j) :
    (u.project_velocity).divergence[j]? = u.divergence[j]? := by
  unfold InteractiveFluid.project_velocity
  dsimp only
  rw [foldl_pair_split (interiorCoords u.width u.height)
    (fun a q => a.set (cellIdx u.width q) (-(1/2) * (1 / (u.width:ℚ))
      * (u.velocity_x.getD (cellIdx u.width q + 1) 0
        - u.velocity_x.getD (cellIdx u.width q - 1) 0
        + u.velocity_y.getD (cellIdx u.width q + u.width) 0
        - u.velocity_y.getD (cellIdx u.width q - u.width) 0)))
    (fun a q => a.set (cellIdx u.width q) 0) u.divergence u.pressure]
  dsimp only
  rw [interior_pass_getElem?
    (fun q => -(1/2) * (1 / (u.width:ℚ))
      * (u.velocity_x.getD (cellIdx u.width q + 1) 0
        - u.velocity_x.getD (cellIdx u.width q - 1) 0
        + u.velocity_y.getD (cellIdx u.width q + u.width) 0
        - u.velocity_y.getD (cellIdx u.width q - u.width) 0))
    (fun j => -(1/2) * (1 / (u.width:ℚ))
      * (u.velocity_x.getD (j + 1) 0 - u.velocity_x.getD (j - 1) 0
        + u.velocity_y.getD (j + u.width) 0
        - u.velocity_y.getD (j - u.width) 0))
    (fun p hp => rfl) u.divergence j]
  rw [if_neg (fun hc => hj hc.1)]

/-- C4: the velocity, pressure and divergence buffers produced by `step`
equal those produced by the variant that skips the diffuse-velocity stage
and the first projection: `advect_velocity` reads only the start-of-step
`_prev` snapshots and overwrites every velocity cell, and the second
projection zero-initialises the pressure and recomputes the interior
divergence from the post-advection velocity. -/
theorem C4_step_eq_stepSkipVelocityPrep (s : InteractiveFluid) (hWF : WF s)
    (hw : 3 ≤ s.width) (hh : 3 ≤ s.height) :
    (s.step).velocity_x = (s.stepSkipVelocityPrep).velocity_x ∧
      (s.step).velocity_y = (s.stepSkipVelocityPrep).velocity_y ∧
      (s.step).pressure = (s.stepSkipVelocityPrep).pressure ∧
      (s.step).divergence = (s.stepSkipVelocityPrep).divergence := by
  suffices hfull : s.step = s.stepSkipVelocityPrep by
    rw [hfull]
    exact ⟨rfl, rfl, rfl, rfl⟩
  unfold InteractiveFluid.step InteractiveFluid.stepSkipVelocityPrep
  dsimp only
  generalize hs0 : ({ s with velocity_x_prev := s.velocity_x, velocity_y_prev := s.velocity_y, dye_r_prev := s.dye_r, dye_g_prev := s.dye_g, dye_b_prev := s.dye_b } : InteractiveFluid) = s0
  have hWFs0 : WF s0 := by
    rw [← hs0]
    exact ⟨hWF.1, hWF.2.1, hWF.1, hWF.2.1, hWF.2.2.2.2.1, hWF.2.2.2.2.2.1,
      hWF.2.2.2.2.2.2.1, hWF.2.2.2.2.1, hWF.2.2.2.2.2.1, hWF.2.2.2.2.2.2.1,
      hWF.2.2.2.2.2.2.2.2.2.2.1, hWF.2.2.2.2.2.2.2.2.2.2.2⟩
  have hww : s0.width = s.width := by rw [← hs0]
  have hhh : s0.height = s.height := by rw [← hs0]
  have hdl := diffuse_velocity_lengths s0
  have hpl := project_velocity_lengths s0.diffuse_velocity
  have hshape : s0.diffuse_velocity.project_velocity
      = { s0 with
          velocity_x := s0.diffuse_velocity.project_velocity.velocity_x,
          velocity_y := s0.diffuse_velocity.project_velocity.velocity_y,
          pressure := s0.diffuse_velocity.project_velocity.pressure,
          divergence := s0.diffuse_velocity.project_velocity.divergence } := rfl
  have hA : s0.diffuse_velocity.project_velocity.advect_velocity
      = { s0.advect_velocity with
          pressure := s0.diffuse_velocity.project_velocity.pressure,
          divergence := s0.diffuse_velocity.project_velocity.divergence } := by
    conv_lhs => rw [hshape]
    exact advect_velocity_eq_of_velocity s0 _ _ _ _
      (by rw [hww]; exact hw) (by rw [hhh]; exact hh)
      hWFs0.1 hWFs0.2.1
      (hpl.1.trans (hdl.1.trans hWFs0.1))
      (hpl.2.1.trans (hdl.2.trans hWFs0.2.1))
  have hB : ({ s0.advect_velocity with
        pressure := s0.diffuse_velocity.project_velocity.pressure,
        divergence := s0.diffuse_velocity.project_velocity.divergence } :
          InteractiveFluid).project_velocity
      = s0.advect_velocity.project_velocity := by
    refine project_velocity_eq_core s0.advect_velocity _ _
      (show 3 ≤ s0.width by rw [hww]; exact hw)
      (show 3 ≤ s0.height by rw [hhh]; exact hh)
      (show s0.pressure.length = s0.width * s0.height from
        hWFs0.2.2.2.2.2.2.2.2.2.2.1)
      (hpl.2.2.1.trans hWFs0.2.2.2.2.2.2.2.2.2.2.1)
      (show s0.divergence.length = s0.width * s0.height from
        hWFs0.2.2.2.2.2.2.2.2.2.2.2)
      (hpl.2.2.2.trans hWFs0.2.2.2.2.2.2.2.2.2.2.2)
      ?_
    intro j hj
    exact project_velocity_divergence_off s0.diffuse_velocity j hj
  rw [hA, hB]

/-- Witness for C4 at the concrete state `new 3 3`. -/
theorem C4_step_eq_stepSkipVelocityPrep_witness :
    WF (InteractiveFluid.new 3 3) ∧ 3 ≤ (InteractiveFluid.new 3 3).width ∧
      3 ≤ (InteractiveFluid.new 3 3).height ∧
      ((InteractiveFluid.new 3 3).step.velocity_x
          = (InteractiveFluid.new 3 3).stepSkipVelocityPrep.velocity_x ∧
        (InteractiveFluid.new 3 3).step.velocity_y
          = (InteractiveFluid.new 3 3).stepSkipVelocityPrep.velocity_y ∧
        (InteractiveFluid.new 3 3).step.pressure
          = (InteractiveFluid.new 3 3).stepSkipVelocityPrep.pressure ∧
        (InteractiveFluid.new 3 3).step.divergence
          = (InteractiveFluid.new 3 3).stepSkipVelocityPrep.divergence) :=
  ⟨by decide, by decide, by decide,
    C4_step_eq_stepSkipVelocityPrep (InteractiveFluid.new 3 3)
      (by decide) (by decide) (by decide)⟩

/-! ### C1: a dye impulse on a quiescent grid survives `step` unchanged -/

theorem getD_replicate_zero (n i : Nat) :
    (List.replicate n (0:ℚ)).getD i 0 = 0 := by
  rw [List.getD_eq_getElem?_getD, List.getElem?_replicate]
  by_cases h : i < n <;> simp [h]

theorem set_getD_self (l : List ℚ) (i : Nat) : l.set i (l.getD i 0) = l := by
  apply List.ext_getElem?
  intro j
  by_cases hij : i = j
  · subst hij
    by_cases h : i < l.length
    · rw [List.getElem?_set_self (by simpa using h), List.getD_eq_getElem?_getD,
        List.getElem?_eq_getElem h]
      rfl
    · rw [List.set_eq_of_length_le (by omega)]
  · rw [List.getElem?_set_ne hij]

theorem setVelBndPair_zero (w h n : Nat) :
    setVelBndPair w h (List.replicate n 0) (List.replicate n 0)
      = (List.replicate n 0, List.replicate n 0) := by
  unfold setVelBndPair
  dsimp only
  have h1 : (List.range w).foldl
      (fun (v : List ℚ × List ℚ) x =>
        ((v.1.set x 0).set ((h-1)*w + x) 0, (v.2.set x 0).set ((h-1)*w + x) 0))
      (List.replicate n 0, List.replicate n 0)
      = (List.replicate n 0, List.replicate n 0) :=
    foldl_invariant (fun v => v = (List.replicate n 0, List.replicate n 0))
      _ _ _ rfl (fun acc p _ hP => by
        rw [hP]
        dsimp only
        simp only [List.set_replicate_self])
  rw [h1]
  exact foldl_invariant (fun v => v = (List.replicate n 0, List.replicate n 0))
    _ _ _ rfl (fun acc p _ hP => by
      rw [hP]
      dsimp only
      simp only [List.set_replicate_self])

theorem copyRows_zero (w h n : Nat) :
    copyRows w h (List.replicate n 0) = List.replicate n 0 := by
  unfold copyRows
  exact foldl_invariant (fun v => v = List.replicate n 0) _ _ _ rfl
    (fun acc p _ hP => by
      rw [hP]
      dsimp only
      rw [getD_replicate_zero, List.set_replicate_self, getD_replicate_zero,
        List.set_replicate_self])

theorem copyCols_zero (w h n : Nat) :
    copyCols w h (List.replicate n 0) = List.replicate n 0 := by
  unfold copyCols
  exact foldl_invariant (fun v => v = List.replicate n 0) _ _ _ rfl
    (fun acc p _ hP => by
      rw [hP]
      dsimp only
      rw [getD_replicate_zero, List.set_replicate_self, getD_replicate_zero,
        List.set_replicate_self])

theorem bilinearSample_replicate_zero (w h : Nat) (dt vxi vyi : ℚ)
    (x y n : Nat) :
    bilinearSample w h dt vxi vyi x y (List.replicate n 0) = 0 := by
  unfold bilinearSample
  simp [getD_replicate_zero]

theorem bilinearSample_zero_vel (w h : Nat) (dt : ℚ) (x y : Nat)
    (field : List ℚ) (hw : 3 ≤ w) (hh : 3 ≤ h) (hx1 : 1 ≤ x) (hx2 : x < w - 1)
    (hy1 : 1 ≤ y) (hy2 : y < h - 1) :
    bilinearSample w h dt 0 0 x y field = field.getD (y*w + x) 0 := by
  unfold bilinearSample
  dsimp only
  rw [mul_zero, sub_zero, sub_zero]
  have hcw : ((w - 1 : Nat) : ℚ) = (w:ℚ) - 1 := by
    rw [Nat.cast_sub (show 1 ≤ w by omega), Nat.cast_one]
  have hch : ((h - 1 : Nat) : ℚ) = (h:ℚ) - 1 := by
    rw [Nat.cast_sub (show 1 ≤ h by omega), Nat.cast_one]
  have hx2q : (x:ℚ) ≤ (w:ℚ) - 2 := by
    have hxn : x ≤ w - 2 := by omega
    calc (x:ℚ) ≤ ((w - 2 : Nat):ℚ) := by exact_mod_cast hxn
      _ = (w:ℚ) - 2 := by
        rw [Nat.cast_sub (show 2 ≤ w by omega)]
        norm_num
  have hy2q : (y:ℚ) ≤ (h:ℚ) - 2 := by
    have hyn : y ≤ h - 2 := by omega
    calc (y:ℚ) ≤ ((h - 2 : Nat):ℚ) := by exact_mod_cast hyn
      _ = (h:ℚ) - 2 := by
        rw [Nat.cast_sub (show 2 ≤ h by omega)]
        norm_num
  have h1 : max ((x:ℚ)) (1/2) = (x:ℚ) := max_eq_left (by
    have hx1q : (1:ℚ) ≤ (x:ℚ) := by exact_mod_cast hx1
    linarith)
  have h2 : min ((x:ℚ)) (((w - 1 : Nat):ℚ) - 1/2) = (x:ℚ) := min_eq_left (by
    rw [hcw]
    linarith)
  have h3 : max ((y:ℚ)) (1/2) = (y:ℚ) := max_eq_left (by
    have hy1q : (1:ℚ) ≤ (y:ℚ) := by exact_mod_cast hy1
    linarith)
  have h4 : min ((y:ℚ)) (((h - 1 : Nat):ℚ) - 1/2) = (y:ℚ) := min_eq_left (by
    rw [hch]
    linarith)
  rw [h1, h2, h3, h4, Int.floor_natCast, Int.floor_natCast,
    Int.toNat_natCast, Int.toNat_natCast, sub_self, sub_self]
  ring_nf

theorem diffuse_velocity_zero (u : InteractiveFluid)
    (hvx : u.velocity_x = List.replicate (u.width * u.height) 0)
    (hvy : u.velocity_y = List.replicate (u.width * u.height) 0)
    (hpx : u.velocity_x_prev = List.replicate (u.width * u.height) 0)
    (hpy : u.velocity_y_prev = List.replicate (u.width * u.height) 0) :
    u.diffuse_velocity = u := by
  unfold InteractiveFluid.diffuse_velocity
  dsimp only
  rw [hpx, hpy, hvx, hvy]
  have hin : ∀ acc : List ℚ × List ℚ,
      acc = (List.replicate (u.width * u.height) 0,
        List.replicate (u.width * u.height) 0) →
      (interiorCoords u.width u.height).foldl
            (fun (v : List ℚ × List ℚ) p =>
              (v.1.set (cellIdx u.width p)
                (((List.replicate (u.width * u.height) (0:ℚ)).getD
                    (cellIdx u.width p) 0
                  + diffuseVelocityA u * (v.1.getD (cellIdx u.width p - 1) 0
                    + v.1.getD (cellIdx u.width p + 1) 0
                    + v.1.getD (cellIdx u.width p - u.width) 0
                    + v.1.getD (cellIdx u.width p + u.width) 0))
                  / (1 + 4*diffuseVelocityA u)),
               v.2.set (cellIdx u.width p)
                (((List.replicate (u.width * u.height) (0:ℚ)).getD
                    (cellIdx u.width p) 0
                  + diffuseVelocityA u * (v.2.getD (cellIdx u.width p - 1) 0
                    + v.2.getD (cellIdx u.width p + 1) 0
                    + v.2.getD (cellIdx u.width p - u.width) 0
                    + v.2.getD (cellIdx u.width p + u.width) 0))
                  / (1 + 4*diffuseVelocityA u)))) acc
        = (List.replicate (u.width * u.height) 0,
           List.replicate (u.width * u.height) 0) := by
    intro acc hacc
    subst hacc
    refine foldl_invariant (fun v : List ℚ × List ℚ =>
      v = (List.replicate (u.width * u.height) 0,
        List.replicate (u.width * u.height) 0)) _ _ _ rfl ?_
    intro a p _ hQ
    rw [hQ]
    dsimp only
    simp only [getD_replicate_zero, zero_add, add_zero, mul_zero, zero_div,
      List.set_replicate_self]
  have hfold : (List.range 4).foldl
      (fun (v : List ℚ × List ℚ) _ =>
        setVelBndPair u.width u.height
          ((interiorCoords u.width u.height).foldl
            (fun (v : List ℚ × List ℚ) p =>
              (v.1.set (cellIdx u.width p)
                (((List.replicate (u.width * u.height) (0:ℚ)).getD
                    (cellIdx u.width p) 0
                  + diffuseVelocityA u * (v.1.getD (cellIdx u.width p - 1) 0
                    + v.1.getD (cellIdx u.width p + 1) 0
                    + v.1.getD (cellIdx u.width p - u.width) 0
                    + v.1.getD (cellIdx u.width p + u.width) 0))
                  / (1 + 4*diffuseVelocityA u)),
               v.2.set (cellIdx u.width p)
                (((List.replicate (u.width * u.height) (0:ℚ)).getD
                    (cellIdx u.width p) 0
                  + diffuseVelocityA u * (v.2.getD (cellIdx u.width p - 1) 0
                    + v.2.getD (cellIdx u.width p + 1) 0
                    + v.2.getD (cellIdx u.width p - u.width) 0
                    + v.2.getD (cellIdx u.width p + u.width) 0))
                  / (1 + 4*diffuseVelocityA u)))) v).1
          ((interiorCoords u.width u.height).foldl
            (fun (v : List ℚ × List ℚ) p =>
              (v.1.set (cellIdx u.width p)
                (((List.replicate (u.width * u.height) (0:ℚ)).getD
                    (cellIdx u.width p) 0
                  + diffuseVelocityA u * (v.1.getD (cellIdx u.width p - 1) 0
                    + v.1.getD (cellIdx u.width p + 1) 0
                    + v.1.getD (cellIdx u.width p - u.width) 0
                    + v.1.getD (cellIdx u.width p + u.width) 0))
                  / (1 + 4*diffuseVelocityA u)),
               v.2.set (cellIdx u.width p)
                (((List.replicate (u.width * u.height) (0:ℚ)).getD
                    (cellIdx u.width p) 0
                  + diffuseVelocityA u * (v.2.getD (cellIdx u.width p - 1) 0
                    + v.2.getD (cellIdx u.width p + 1) 0
                    + v.2.getD (cellIdx u.width p - u.width) 0
                    + v.2.getD (cellIdx u.width p + u.width) 0))
                  / (1 + 4*diffuseVelocityA u)))) v).2)
      (List.replicate (u.width * u.height) 0,
       List.replicate (u.width * u.height) 0)
      = (List.replicate (u.width * u.height) 0,
         List.replicate (u.width * u.height) 0) := by
    refine foldl_invariant (fun v : List ℚ × List ℚ =>
      v = (List.replicate (u.width * u.height) 0,
        List.replicate (u.width * u.height) 0)) _ _ _ rfl ?_
    intro acc n _ hP
    rw [hin acc hP]
    dsimp only
    exact setVelBndPair_zero u.width u.height (u.width * u.height)
  rw [hfold]
  dsimp only
  calc ({ u with velocity_x := List.replicate (u.width * u.height) 0, velocity_y := List.replicate (u.width * u.height) 0, velocity_x_prev := List.replicate (u.width * u.height) 0, velocity_y_prev := List.replicate (u.width * u.height) 0 } : InteractiveFluid)
      = ({ u with velocity_x := u.velocity_x, velocity_y := u.velocity_y, velocity_x_prev := u.velocity_x_prev, velocity_y_prev := u.velocity_y_prev } : InteractiveFluid) := by rw [hvx, hvy, hpx, hpy]
    _ = u := rfl

theorem pressureSweep_zero (w h n : Nat) :
    pressureSweep w h (List.replicate n 0) (List.replicate n 0)
      = (List.replicate n 0, 0) := by
  unfold pressureSweep
  refine foldl_invariant (fun acc : List ℚ × ℚ =>
    acc = (List.replicate n 0, 0)) _ _ _ rfl ?_
  intro acc q _ hP
  rw [hP]
  dsimp only
  simp only [getD_replicate_zero, zero_add, add_zero, zero_div, sub_self,
    sub_zero, abs_zero, lt_self_iff_false, if_false, List.set_replicate_self]

theorem pressureIterate_zero (w h n : Nat) :
    ∀ fuel iter, pressureIterate w h (List.replicate n 0) fuel iter
        (List.replicate n 0) = List.replicate n 0 := by
  intro fuel
  induction fuel with
  | zero => intro iter; rfl
  | succ k ih =>
    intro iter
    unfold pressureIterate
    dsimp only
    rw [pressureSweep_zero]
    dsimp only
    rw [copyRows_zero, copyCols_zero]
    by_cases hc : 5 < iter
    · rw [if_pos ⟨hc, by norm_num⟩]
    · rw [if_neg (fun hcc => hc hcc.1), ih]

theorem project_velocity_zero (u : InteractiveFluid)
    (hvx : u.velocity_x = List.replicate (u.width * u.height) 0)
    (hvy : u.velocity_y = List.replicate (u.width * u.height) 0)
    (hpr : u.pressure = List.replicate (u.width * u.height) 0)
    (hdv : u.divergence = List.replicate (u.width * u.height) 0) :
    u.project_velocity = u := by
  unfold InteractiveFluid.project_velocity
  dsimp only
  rw [hvx, hvy, hpr, hdv]
  have hdp : (interiorCoords u.width u.height).foldl
      (fun (dp : List ℚ × List ℚ) q =>
        (dp.1.set (cellIdx u.width q) (-(1/2) * (1 / (u.width:ℚ))
          * ((List.replicate (u.width * u.height) 0).getD
              (cellIdx u.width q + 1) 0
            - (List.replicate (u.width * u.height) 0).getD
              (cellIdx u.width q - 1) 0
            + (List.replicate (u.width * u.height) 0).getD
              (cellIdx u.width q + u.width) 0
            - (List.replicate (u.width * u.height) 0).getD
              (cellIdx u.width q - u.width) 0)),
         dp.2.set (cellIdx u.width q) 0))
      (List.replicate (u.width * u.height) 0,
       List.replicate (u.width * u.height) 0)
      = (List.replicate (u.width * u.height) 0,
         List.replicate (u.width * u.height) 0) := by
    refine foldl_invariant (fun v : List ℚ × List ℚ =>
      v = (List.replicate (u.width * u.height) 0,
        List.replicate (u.width * u.height) 0)) _ _ _ rfl ?_
    intro a q _ hQ
    rw [hQ]
    dsimp only
    simp only [getD_replicate_zero, sub_self, sub_zero, add_zero, zero_add,
      mul_zero, List.set_replicate_self]
  rw [hdp]
  dsimp only
  rw [copyRows_zero, copyCols_zero, pressureIterate_zero]
  have hgrad : (interiorCoords u.width u.height).foldl
      (fun (v : List ℚ × List ℚ) q =>
        (v.1.set (cellIdx u.width q) (v.1.getD (cellIdx u.width q) 0
          - (1/2) * ((List.replicate (u.width * u.height) 0).getD
              (cellIdx u.width q + 1) 0
            - (List.replicate (u.width * u.height) 0).getD
              (cellIdx u.width q - 1) 0) / (1 / (u.width:ℚ))),
         v.2.set (cellIdx u.width q) (v.2.getD (cellIdx u.width q) 0
          - (1/2) * ((List.replicate (u.width * u.height) 0).getD
              (cellIdx u.width q + u.width) 0
            - (List.replicate (u.width * u.height) 0).getD
              (cellIdx u.width q - u.width) 0) / (1 / (u.width:ℚ)))))
      (List.replicate (u.width * u.height) 0,
       List.replicate (u.width * u.height) 0)
      = (List.replicate (u.width * u.height) 0,
         List.replicate (u.width * u.height) 0) := by
    refine foldl_invariant (fun v : List ℚ × List ℚ =>
      v = (List.replicate (u.width * u.height) 0,
        List.replicate (u.width * u.height) 0)) _ _ _ rfl ?_
    intro a q _ hQ
    rw [hQ]
    dsimp only
    simp only [getD_replicate_zero, sub_self, sub_zero, mul_zero, zero_div,
      List.set_replicate_self]
  rw [hgrad]
  dsimp only
  rw [setVelBndPair_zero]
  calc ({ u with velocity_x := List.replicate (u.width * u.height) 0, velocity_y := List.replicate (u.width * u.height) 0, pressure := List.replicate (u.width * u.height) 0, divergence := List.replicate (u.width * u.height) 0 } : InteractiveFluid)
      = ({ u with velocity_x := u.velocity_x, velocity_y := u.velocity_y, pressure := u.pressure, divergence := u.divergence } : InteractiveFluid) := by
        rw [hvx, hvy, hpr, hdv]
    _ = u := rfl

theorem advect_velocity_zero (u : InteractiveFluid)
    (hvx : u.velocity_x = List.replicate (u.width * u.height) 0)
    (hvy : u.velocity_y = List.replicate (u.width * u.height) 0)
    (hpx : u.velocity_x_prev = List.replicate (u.width * u.height) 0)
    (hpy : u.velocity_y_prev = List.replicate (u.width * u.height) 0) :
    u.advect_velocity = u := by
  unfold InteractiveFluid.advect_velocity
  dsimp only
  rw [hpx, hpy, hvx, hvy]
  have hfold : (interiorCoords u.width u.height).foldl
      (fun (v : List ℚ × List ℚ) p =>
        (v.1.set (cellIdx u.width p)
          (bilinearSample u.width u.height u.dt
            ((List.replicate (u.width * u.height) (0:ℚ)).getD
              (cellIdx u.width p) 0)
            ((List.replicate (u.width * u.height) (0:ℚ)).getD
              (cellIdx u.width p) 0)
            p.1 p.2 (List.replicate (u.width * u.height) 0)),
         v.2.set (cellIdx u.width p)
          (bilinearSample u.width u.height u.dt
            ((List.replicate (u.width * u.height) (0:ℚ)).getD
              (cellIdx u.width p) 0)
            ((List.replicate (u.width * u.height) (0:ℚ)).getD
              (cellIdx u.width p) 0)
            p.1 p.2 (List.replicate (u.width * u.height) 0))))
      (List.replicate (u.width * u.height) 0,
       List.replicate (u.width * u.height) 0)
      = (List.replicate (u.width * u.height) 0,
         List.replicate (u.width * u.height) 0) := by
    refine foldl_invariant (fun v : List ℚ × List ℚ =>
      v = (List.replicate (u.width * u.height) 0,
        List.replicate (u.width * u.height) 0)) _ _ _ rfl ?_
    intro a p _ hQ
    rw [hQ]
    dsimp only
    simp only [bilinearSample_replicate_zero, List.set_replicate_self]
  rw [hfold]
  dsimp only
  rw [setVelBndPair_zero]
  dsimp only
  calc ({ u with velocity_x := List.replicate (u.width * u.height) 0, velocity_y := List.replicate (u.width * u.height) 0, velocity_x_prev := List.replicate (u.width * u.height) 0, velocity_y_prev := List.replicate (u.width * u.height) 0 } : InteractiveFluid)
      = ({ u with velocity_x := u.velocity_x, velocity_y := u.velocity_y, velocity_x_prev := u.velocity_x_prev, velocity_y_prev := u.velocity_y_prev } : InteractiveFluid) := by rw [hvx, hvy, hpx, hpy]
    _ = u := rfl

theorem advect_dye_zero_resample (u : InteractiveFluid)
    (hw : 3 ≤ u.width) (hh : 3 ≤ u.height)
    (hvx : u.velocity_x = List.replicate (u.width * u.height) 0)
    (hvy : u.velocity_y = List.replicate (u.width * u.height) 0)
    (hr : u.dye_r = u.dye_r_prev) (hg : u.dye_g = u.dye_g_prev)
    (hb : u.dye_b = u.dye_b_prev) :
    u.advect_dye = { u with
      dye_r := (dyeMassRescale u.dye_r_prev.sum u.dye_g_prev.sum
        u.dye_b_prev.sum
        (copyCols u.width u.height (copyRows u.width u.height u.dye_r_prev))
        (copyCols u.width u.height (copyRows u.width u.height u.dye_g_prev))
        (copyCols u.width u.height
          (copyRows u.width u.height u.dye_b_prev))).1,
      dye_g := (dyeMassRescale u.dye_r_prev.sum u.dye_g_prev.sum
        u.dye_b_prev.sum
        (copyCols u.width u.height (copyRows u.width u.height u.dye_r_prev))
        (copyCols u.width u.height (copyRows u.width u.height u.dye_g_prev))
        (copyCols u.width u.height
          (copyRows u.width u.height u.dye_b_prev))).2.1,
      dye_b := (dyeMassRescale u.dye_r_prev.sum u.dye_g_prev.sum
        u.dye_b_prev.sum
        (copyCols u.width u.height (copyRows u.width u.height u.dye_r_prev))
        (copyCols u.width u.height (copyRows u.width u.height u.dye_g_prev))
        (copyCols u.width u.height
          (copyRows u.width u.height u.dye_b_prev))).2.2 } := by
  unfold InteractiveFluid.advect_dye
  dsimp only
  rw [hvx, hvy, hr, hg, hb]
  rw [List.foldl_ext
    (fun (v : List ℚ × List ℚ × List ℚ) p =>
      (v.1.set (cellIdx u.width p)
        (bilinearSample u.width u.height u.dt
          ((List.replicate (u.width * u.height) 0).getD (cellIdx u.width p) 0)
          ((List.replicate (u.width * u.height) 0).getD (cellIdx u.width p) 0)
          p.1 p.2 u.dye_r_prev),
       v.2.1.set (cellIdx u.width p)
        (bilinearSample u.width u.height u.dt
          ((List.replicate (u.width * u.height) 0).getD (cellIdx u.width p) 0)
          ((List.replicate (u.width * u.height) 0).getD (cellIdx u.width p) 0)
          p.1 p.2 u.dye_g_prev),
       v.2.2.set (cellIdx u.width p)
        (bilinearSample u.width u.height u.dt
          ((List.replicate (u.width * u.height) 0).getD (cellIdx u.width p) 0)
          ((List.replicate (u.width * u.height) 0).getD (cellIdx u.width p) 0)
          p.1 p.2 u.dye_b_prev)))
    (fun (v : List ℚ × List ℚ × List ℚ) p =>
      (v.1.set (cellIdx u.width p) (u.dye_r_prev.getD (cellIdx u.width p) 0),
       v.2.1.set (cellIdx u.width p) (u.dye_g_prev.getD (cellIdx u.width p) 0),
       v.2.2.set (cellIdx u.width p) (u.dye_b_prev.getD (cellIdx u.width p) 0)))
    (u.dye_r_prev, u.dye_g_prev, u.dye_b_prev)
    (fun v p hp => by
      have hc := mem_interiorCoords.mp hp
      simp only [getD_replicate_zero]
      rw [bilinearSample_zero_vel u.width u.height u.dt p.1 p.2 u.dye_r_prev
          hw hh hc.1 hc.2.1 hc.2.2.1 hc.2.2.2,
        bilinearSample_zero_vel u.width u.height u.dt p.1 p.2 u.dye_g_prev
          hw hh hc.1 hc.2.1 hc.2.2.1 hc.2.2.2,
        bilinearSample_zero_vel u.width u.height u.dt p.1 p.2 u.dye_b_prev
          hw hh hc.1 hc.2.1 hc.2.2.1 hc.2.2.2]
      rfl)]
  have hid : (interiorCoords u.width u.height).foldl
      (fun (v : List ℚ × List ℚ × List ℚ) p =>
        (v.1.set (cellIdx u.width p) (u.dye_r_prev.getD (cellIdx u.width p) 0),
         v.2.1.set (cellIdx u.width p)
           (u.dye_g_prev.getD (cellIdx u.width p) 0),
         v.2.2.set (cellIdx u.width p)
           (u.dye_b_prev.getD (cellIdx u.width p) 0)))
      (u.dye_r_prev, u.dye_g_prev, u.dye_b_prev)
      = (u.dye_r_prev, u.dye_g_prev, u.dye_b_prev) := by
    refine foldl_invariant (fun v : List ℚ × List ℚ × List ℚ =>
      v = (u.dye_r_prev, u.dye_g_prev, u.dye_b_prev)) _ _ _ rfl ?_
    intro a p _ hQ
    rw [hQ]
    dsimp only
    rw [set_getD_self, set_getD_self, set_getD_self]
  rw [hid]
  dsimp only
  rw [setDyeBndTriple_eq]

/-- The C1 scenario state: `new 10 10` after `add_dye 5 5 (1,0,0)`. -/
def c1State : InteractiveFluid :=
  { InteractiveFluid.new 10 10 with
    dye_r := (List.replicate (10 * 10) (0:ℚ)).set 55 1 }

/-- The C1 scenario state after `step`'s snapshot phase. -/
def c1Snap : InteractiveFluid :=
  { c1State with velocity_x_prev := c1State.velocity_x, velocity_y_prev := c1State.velocity_y, dye_r_prev := c1State.dye_r, dye_g_prev := c1State.dye_g, dye_b_prev := c1State.dye_b }


set_option maxRecDepth 8000 in
theorem c1_add_dye_eq :
    (InteractiveFluid.new 10 10).add_dye 5 5 (1, 0, 0) = c1State := by
  unfold InteractiveFluid.add_dye c1State
  rw [if_pos (show 5 < (InteractiveFluid.new 10 10).width ∧
    5 < (InteractiveFluid.new 10 10).height from ⟨by decide, by decide⟩)]
  dsimp only
  rw [show (InteractiveFluid.new 10 10).dye_r
      = List.replicate (10 * 10) (0:ℚ) from rfl,
    show (InteractiveFluid.new 10 10).dye_g
      = List.replicate (10 * 10) (0:ℚ) from rfl,
    show (InteractiveFluid.new 10 10).dye_b
      = List.replicate (10 * 10) (0:ℚ) from rfl,
    show 5 * (InteractiveFluid.new 10 10).width + 5 = 55 from rfl]
  simp only [getD_replicate_zero, zero_add, add_zero, List.set_replicate_self]

set_option maxRecDepth 100000 in
theorem c1_copy_impulse :
    copyCols 10 10 (copyRows 10 10 ((List.replicate (10 * 10) (0:ℚ)).set 55 1))
      = (List.replicate (10 * 10) (0:ℚ)).set 55 1 := by
  with_unfolding_all rfl

set_option maxRecDepth 100000 in
theorem c1_mass_rescale_noop :
    dyeMassRescale ((List.replicate (10 * 10) (0:ℚ)).set 55 1).sum
        (List.replicate (10 * 10) (0:ℚ)).sum
        (List.replicate (10 * 10) (0:ℚ)).sum
        ((List.replicate (10 * 10) (0:ℚ)).set 55 1)
        (List.replicate (10 * 10) (0:ℚ)) (List.replicate (10 * 10) (0:ℚ))
      = ((List.replicate (10 * 10) (0:ℚ)).set 55 1,
         List.replicate (10 * 10) (0:ℚ), List.replicate (10 * 10) (0:ℚ)) := by
  unfold dyeMassRescale
  dsimp only
  rw [if_neg (fun hc => absurd hc.2.1
    (of_decide_eq_true (by with_unfolding_all rfl) :
      ¬ ((1:ℚ)/10^10 < (List.replicate (10 * 10) (0:ℚ)).sum)))]

set_option maxRecDepth 100000 in
theorem c1_step_dye_r :
    (((InteractiveFluid.new 10 10).add_dye 5 5 (1, 0, 0)).step).dye_r
      = (List.replicate (10 * 10) (0:ℚ)).set 55 1 := by
  rw [c1_add_dye_eq]
  unfold InteractiveFluid.step
  dsimp only
  rw [show ({ c1State with velocity_x_prev := c1State.velocity_x, velocity_y_prev := c1State.velocity_y, dye_r_prev := c1State.dye_r, dye_g_prev := c1State.dye_g, dye_b_prev := c1State.dye_b } : InteractiveFluid) = c1Snap from rfl]
  rw [diffuse_velocity_zero c1Snap rfl rfl rfl rfl,
    project_velocity_zero c1Snap rfl rfl rfl rfl,
    advect_velocity_zero c1Snap rfl rfl rfl rfl,
    project_velocity_zero c1Snap rfl rfl rfl rfl,
    diffuse_dye_then_advect c1Snap (by decide) (by decide) (by decide)
      (by decide) (by decide),
    advect_dye_zero_resample c1Snap (by decide) (by decide) rfl rfl rfl rfl rfl]
  rw [show c1Snap.dye_r_prev = (List.replicate (10 * 10) (0:ℚ)).set 55 1
      from rfl,
    show c1Snap.dye_g_prev = List.replicate (10 * 10) (0:ℚ) from rfl,
    show c1Snap.dye_b_prev = List.replicate (10 * 10) (0:ℚ) from rfl,
    show c1Snap.width = 10 from rfl, show c1Snap.height = 10 from rfl,
    copyRows_zero, copyCols_zero, c1_copy_impulse, c1_mass_rescale_noop]
  dsimp only
  unfold InteractiveFluid.set_boundaries InteractiveFluid.set_dye_boundaries
    InteractiveFluid.set_velocity_boundaries
  dsimp only
  rw [setDyeBndTriple_eq]
  dsimp only
  rw [c1_copy_impulse]

set_option maxRecDepth 100000 in
/-- C1 (amended): on the quiescent 10×10 grid, the dye impulse injected at
cell `(5,5)` survives `step` exactly: with zero velocity the advection
backtrace lands on the cell itself and resamples the start-of-step
snapshot, undoing the dye diffusion entirely, so `dye_r[55]` is still
exactly `1`, the four neighbours hold exactly `0`, and the total red mass
is exactly `1`. -/
theorem C1_amended_impulse_survives_step :
    (((InteractiveFluid.new 10 10).add_dye 5 5 (1, 0, 0)).step).dye_r
        = (List.replicate (10 * 10) (0:ℚ)).set 55 1 ∧
      (((InteractiveFluid.new 10 10).add_dye 5 5 (1, 0, 0)).step).dye_r.getD
          55 0 = 1 ∧
      (((InteractiveFluid.new 10 10).add_dye 5 5 (1, 0, 0)).step).dye_r.getD
            54 0
          + (((InteractiveFluid.new 10 10).add_dye 5 5
              (1, 0, 0)).step).dye_r.getD 56 0
          + (((InteractiveFluid.new 10 10).add_dye 5 5
              (1, 0, 0)).step).dye_r.getD 45 0
          + (((InteractiveFluid.new 10 10).add_dye 5 5
              (1, 0, 0)).step).dye_r.getD 65 0 = 0 ∧
      (((InteractiveFluid.new 10 10).add_dye 5 5 (1, 0, 0)).step).dye_r.sum
          = 1 := by
  refine ⟨c1_step_dye_r, ?_, ?_, ?_⟩ <;> rw [c1_step_dye_r] <;>
    exact of_decide_eq_true (by with_unfolding_all rfl)

set_option maxRecDepth 100000 in
/-- Counterexample to C1 as stated: after the scenario's `step`,
`dye_r[55]` equals exactly `1` (not strictly less than `1`), and the
4-neighbour sum equals exactly `0` (not strictly positive). -/
theorem C1_impulse_counterexample :
    ¬ ((((InteractiveFluid.new 10 10).add_dye 5 5 (1, 0, 0)).step).dye_r.getD
          55 0 < 1 ∧
        0 < (((InteractiveFluid.new 10 10).add_dye 5 5
              (1, 0, 0)).step).dye_r.getD 54 0
          + (((InteractiveFluid.new 10 10).add_dye 5 5
              (1, 0, 0)).step).dye_r.getD 56 0
          + (((InteractiveFluid.new 10 10).add_dye 5 5
              (1, 0, 0)).step).dye_r.getD 45 0
          + (((InteractiveFluid.new 10 10).add_dye 5 5
              (1, 0, 0)).step).dye_r.getD 65 0) := by
  rw [c1_step_dye_r]
  exact of_decide_eq_true (by with_unfolding_all rfl)

end ItsLiquid
